import Mathlib

/-!
Shallow embedding of the vulthor core (navigation/state engine, lazy-loading
mail store, maildir scanner) together with proofs about the claims of its
specification.

Conventions of the embedding:
* On-disk paths (`PathBuf` in the source) are lists of path components
  (`List String`).
* The filesystem is a static tree `FSNode`; a file node carries the outcome of
  reading and parsing it with the external `mail_parser` library, which the
  spec treats as an opaque collaborator: `Except String (Option ParsedMessage)`
  is the result of `fs::read` (error string on read failure) combined with
  `MessageParser::parse` (`none` on parse failure).
* Rust methods taking `&mut self` become functions `State → State` (or
  returning a pair when they also produce a value); methods that read the
  filesystem take the `FSNode` filesystem as an extra argument.
-/

namespace Vulthor

/-- Model of one address of the external mail parser: `addr.name()` and
`addr.address()` are both optional. -/
structure MailAddress where
  name : Option String
  address : Option String
deriving DecidableEq

/-- Model of a content type returned by the external parser:
`ct.c_type` and `ct.subtype()`. -/
structure MailContentType where
  c_type : String
  subtype : Option String
deriving DecidableEq

/-- Model of one attachment part of a parsed message
(`message.attachment(i)`). -/
structure MailAttachmentPart where
  attachment_name : Option String
  content_type : Option MailContentType
  size : Nat
deriving DecidableEq

/-- Model of a successfully parsed message (`mail_parser::Message`), restricted
to the accessors the source uses.  `fromAddr`/`toAddr` stand for
`message.from().and_then(|a| a.first())` and the same for `to()`. -/
structure ParsedMessage where
  fromAddr : Option MailAddress
  toAddr : Option MailAddress
  subject : Option String
  date : Option String
  message_id : Option String
  bodyText : Option String
  bodyHtml : Option String
  attachments : List MailAttachmentPart
deriving DecidableEq

/-- A static filesystem tree.  A `file` carries the outcome of reading and
parsing it; a `dir` carries its named entries in directory-iteration order. -/
inductive FSNode where
  | file (read : Except String (Option ParsedMessage))
  | dir (entries : List (String × FSNode))

/-- Resolve a path (list of components) inside the filesystem tree. -/
def FSNode.lookup : FSNode → List String → Option FSNode
  | n, [] => some n
  | FSNode.file _, _ :: _ => none
  | FSNode.dir es, p :: rest =>
    match es.find? (fun e => e.fst == p) with
    | some e => FSNode.lookup e.snd rest
    | none => none

/-- Outcome of `fs::read` followed by `MessageParser::parse` at a path:
reading a missing path or a directory fails like `fs::read` does. -/
def readParseAt (fs : FSNode) (path : List String) : Except String (Option ParsedMessage) :=
  match fs.lookup path with
  | some (FSNode.file r) => r
  | _ => Except.error "failed to read file"

/-- Byte-prefix test of `str::starts_with`, written on the character list
(the byte-position loop inside `String.startsWith` does not reduce in the
kernel; on valid UTF-8 the character-prefix test is the same predicate). -/
def strStartsWith (s pre : String) : Bool := pre.data.isPrefixOf s.data

/-- Byte-suffix test of `str::ends_with`, written on the character list. -/
def strEndsWith (s suf : String) : Bool := suf.data.isSuffixOf s.data

/-- `EmailHeaders` of `email.rs` (the Rust fields `from` and `to` are
`from_` and `to_` here, both being Lean keywords). -/
structure EmailHeaders where
  from_ : String
  to_ : String
  subject : String
  date : String
  message_id : String
deriving DecidableEq

/-- `Attachment` of `email.rs`. -/
structure Attachment where
  filename : String
  content_type : String
  size : Nat
deriving DecidableEq

/-- `EmailLoadState` of `email.rs`. -/
inductive EmailLoadState where
  | HeadersOnly
  | FullyLoaded
deriving DecidableEq

/-- `Email` of `email.rs`. -/
structure Email where
  headers : EmailHeaders
  body_text : String
  body_html : Option String
  attachments : List Attachment
  file_path : List String
  is_unread : Bool
  load_state : EmailLoadState
deriving DecidableEq

/-- `Email::new`. -/
def Email.new (file_path : List String) : Email where
  headers := { from_ := "", to_ := "", subject := "", date := "", message_id := "" }
  body_text := ""
  body_html := none
  attachments := []
  file_path := file_path
  is_unread := false
  load_state := EmailLoadState.HeadersOnly

/-- Address formatting used by `Email::parse_headers` for both `from` and
`to`: `format!("{} <{}>", name, email)` etc. -/
def formatMailAddress (a : MailAddress) : String :=
  match a.name, a.address with
  | some n, some ad => n ++ " <" ++ ad ++ ">"
  | none, some ad => ad
  | some n, none => n
  | none, none => "Unknown"

/-- `Email::parse_headers` (never fails in the source: always returns `Ok`). -/
def Email.parse_headers (e : Email) (m : ParsedMessage) : Email :=
  { e with
    headers :=
      { from_ := (m.fromAddr.map formatMailAddress).getD ""
        to_ := (m.toAddr.map formatMailAddress).getD ""
        subject := m.subject.getD "(no subject)"
        date := m.date.getD ""
        message_id := m.message_id.getD "" } }

/-- Attachment descriptor built by `Email::extract_attachments` for one part. -/
def attachmentOfPart (p : MailAttachmentPart) : Attachment where
  filename := p.attachment_name.getD "unnamed_attachment"
  content_type :=
    match p.content_type with
    | some ct => ct.c_type ++ "/" ++ ct.subtype.getD "*"
    | none => "application/octet-stream"
  size := p.size

/-- `Email::parse_body` together with `Email::extract_attachments`: body text
and html are set only when present, attachment descriptors are appended. -/
def Email.parse_body (e : Email) (m : ParsedMessage) : Email :=
  { e with
    body_text := m.bodyText.getD e.body_text
    body_html := match m.bodyHtml with
      | some h => some h
      | none => e.body_html
    attachments := e.attachments ++ m.attachments.map attachmentOfPart }

/-- `Email::parse_headers_only`: reads and parses the file, updates the
headers and sets `load_state` to `HeadersOnly`. -/
def Email.parse_headers_only (fs : FSNode) (e : Email) : Except String Email :=
  match readParseAt fs e.file_path with
  | Except.error s => Except.error s
  | Except.ok none => Except.error "Failed to parse email headers"
  | Except.ok (some m) => Except.ok { e.parse_headers m with load_state := EmailLoadState.HeadersOnly }

/-- `Email::parse_from_file`: full parse, sets `load_state := FullyLoaded`. -/
def Email.parse_from_file (fs : FSNode) (e : Email) : Except String Email :=
  match readParseAt fs e.file_path with
  | Except.error s => Except.error s
  | Except.ok none => Except.error "Failed to parse email"
  | Except.ok (some m) =>
    Except.ok { (e.parse_headers m).parse_body m with load_state := EmailLoadState.FullyLoaded }

/-- `Email::ensure_fully_loaded`. -/
def Email.ensure_fully_loaded (fs : FSNode) (e : Email) : Except String Email :=
  match e.load_state with
  | EmailLoadState.HeadersOnly => e.parse_from_file fs
  | EmailLoadState.FullyLoaded => Except.ok e

/-- `Folder` of `email.rs`.  Folders nest, so this is an inductive type with
one constructor; accessor functions below carry the Rust field names. -/
inductive Folder where
  | mk (name : String) (path : List String) (emails : List Email)
      (subfolders : List Folder) (unread_count : Nat) (total_count : Nat)
      (is_loaded : Bool)

mutual

/-- Decidable equality for the nested inductive `Folder` (the automatic
deriving does not handle the nesting). -/
def Folder.decEq : (a b : Folder) → Decidable (a = b)
  | Folder.mk n1 p1 e1 s1 u1 t1 l1, Folder.mk n2 p2 e2 s2 u2 t2 l2 =>
    haveI : Decidable (s1 = s2) := Folder.decEqList s1 s2
    decidable_of_iff (n1 = n2 ∧ p1 = p2 ∧ e1 = e2 ∧ s1 = s2 ∧ u1 = u2 ∧ t1 = t2 ∧ l1 = l2)
      (by rw [Folder.mk.injEq])

/-- Decidable equality for lists of folders, mutually with `Folder.decEq`. -/
def Folder.decEqList : (as_ bs : List Folder) → Decidable (as_ = bs)
  | [], [] => isTrue rfl
  | [], _ :: _ => isFalse nofun
  | _ :: _, [] => isFalse nofun
  | a :: as_, b :: bs =>
    match Folder.decEq a b, Folder.decEqList as_ bs with
    | isTrue h1, isTrue h2 => isTrue (by rw [h1, h2])
    | isFalse h1, _ => isFalse (by intro h; injection h with hh ht; exact h1 hh)
    | _, isFalse h2 => isFalse (by intro h; injection h with hh ht; exact h2 ht)

end

instance : DecidableEq Folder := Folder.decEq

/-- Field `Folder.name`. -/
def Folder.name : Folder → String
  | Folder.mk n _ _ _ _ _ _ => n

/-- Field `Folder.path`. -/
def Folder.path : Folder → List String
  | Folder.mk _ p _ _ _ _ _ => p

/-- Field `Folder.emails`. -/
def Folder.emails : Folder → List Email
  | Folder.mk _ _ es _ _ _ _ => es

/-- Field `Folder.subfolders`. -/
def Folder.subfolders : Folder → List Folder
  | Folder.mk _ _ _ subs _ _ _ => subs

/-- Field `Folder.unread_count`. -/
def Folder.unread_count : Folder → Nat
  | Folder.mk _ _ _ _ u _ _ => u

/-- Field `Folder.total_count`. -/
def Folder.total_count : Folder → Nat
  | Folder.mk _ _ _ _ _ t _ => t

/-- Field `Folder.is_loaded`. -/
def Folder.is_loaded : Folder → Bool
  | Folder.mk _ _ _ _ _ _ l => l

/-- Functional update of the `emails` field. -/
def Folder.setEmails : Folder → List Email → Folder
  | Folder.mk n p _ subs u t l, es => Folder.mk n p es subs u t l

/-- Functional update of the `subfolders` field. -/
def Folder.setSubfolders : Folder → List Folder → Folder
  | Folder.mk n p es _ u t l, subs => Folder.mk n p es subs u t l

/-- Functional update of the `is_loaded` field. -/
def Folder.setIsLoaded : Folder → Bool → Folder
  | Folder.mk n p es subs u t _, l => Folder.mk n p es subs u t l

/-- `Folder::new`. -/
def Folder.new (name : String) (path : List String) : Folder :=
  Folder.mk name path [] [] 0 0 false

/-- `Folder::add_email`: bumps `unread_count` when the email is unread, always
bumps `total_count`, and pushes the email at the end of the list. -/
def Folder.add_email : Folder → Email → Folder
  | Folder.mk n p es subs u t l, e =>
    Folder.mk n p (es ++ [e]) subs (if e.is_unread then u + 1 else u) (t + 1) l

/-- `Folder::add_subfolder`. -/
def Folder.add_subfolder : Folder → Folder → Folder
  | Folder.mk n p es subs u t l, g => Folder.mk n p es (subs ++ [g]) u t l

/-- `Folder::get_display_name`. -/
def Folder.get_display_name (f : Folder) : String :=
  match f.unread_count with
  | 0 => f.name
  | count => f.name ++ " (" ++ toString count ++ ")"

/-- The comparator of `Folder::get_sorted_subfolders`: an exact,
case-sensitive match on the literal name `"INBOX"` sorts first, everything
else by string comparison of the raw `name` field.  The comparison is written
on `.data` — the core `<` on `String` is definitionally `fun a b => a.data <
b.data`, but its `Decidable` instance is the kernel-opaque `String.ltb`, so
the embedding compares the character lists directly; lexicographic codepoint
order agrees with the byte-wise `str::cmp` of Rust because UTF-8 preserves
codepoint order. -/
def folderCmp (a b : Folder) : Ordering :=
  if a.name = "INBOX" then Ordering.lt
  else if b.name = "INBOX" then Ordering.gt
  else if a.name.data < b.name.data then Ordering.lt
  else if a.name = b.name then Ordering.eq
  else Ordering.gt

/-- The total preorder induced by `folderCmp`; `Vec::sort_by` with a total
preorder is a stable sort, so it computes the same list as insertion sort
with this relation. -/
def folderLe (a b : Folder) : Prop := folderCmp a b ≠ Ordering.gt

instance : DecidableRel folderLe := fun a b =>
  inferInstanceAs (Decidable (folderCmp a b ≠ Ordering.gt))

/-- `Folder::get_sorted_subfolders` (stable sort by `folderCmp`). -/
def Folder.get_sorted_subfolders (f : Folder) : List Folder :=
  f.subfolders.insertionSort folderLe

/-- Path descent with the silent clamping of `EmailStore::get_current_folder`:
an out-of-range index is skipped and descent continues at the same folder. -/
def Folder.navClamped : Folder → List Nat → Folder
  | f, [] => f
  | f, i :: rest =>
    if h : i < f.subfolders.length then Folder.navClamped (f.subfolders.get ⟨i, h⟩) rest
    else Folder.navClamped f rest

/-- In-place modification through the same clamped descent as
`Folder.navClamped` (the `&mut` version of the walk in
`EmailStore::get_current_folder_mut`). -/
def Folder.modifyClamped : Folder → List Nat → (Folder → Folder) → Folder
  | f, [], g => g f
  | f, i :: rest, g =>
    if h : i < f.subfolders.length then
      f.setSubfolders (f.subfolders.set i (Folder.modifyClamped (f.subfolders.get ⟨i, h⟩) rest g))
    else Folder.modifyClamped f rest g

/-- Strict path descent of `EmailStore::get_folder_at_path`: an out-of-range
index yields `none`. -/
def Folder.getAtPath : Folder → List Nat → Option Folder
  | f, [] => some f
  | f, i :: rest =>
    if h : i < f.subfolders.length then Folder.getAtPath (f.subfolders.get ⟨i, h⟩) rest
    else none

/-- `EmailStore` of `email.rs`. -/
structure EmailStore where
  root_folder : Folder
  current_folder : List Nat
  selected_email : Option Nat
deriving DecidableEq

/-- `EmailStore::new`. -/
def EmailStore.new (maildir_path : List String) : EmailStore where
  root_folder := Folder.new "Mail" maildir_path
  current_folder := []
  selected_email := none

/-- `EmailStore::get_current_folder` (and the read part of
`get_current_folder_mut`): clamped descent along `current_folder`. -/
def EmailStore.get_current_folder (s : EmailStore) : Folder :=
  s.root_folder.navClamped s.current_folder

/-- `EmailStore::enter_folder_by_path`. -/
def EmailStore.enter_folder_by_path (s : EmailStore) (path : List Nat) : EmailStore :=
  { s with current_folder := s.current_folder ++ path, selected_email := none }

/-- `EmailStore::exit_folder`: pops the last component and clears the
selection when there was one to pop. -/
def EmailStore.exit_folder (s : EmailStore) : EmailStore :=
  if s.current_folder.isEmpty then s
  else { s with current_folder := s.current_folder.dropLast, selected_email := none }

/-- `EmailStore::select_email`: accepted only in bounds, otherwise the
previous selection is left untouched. -/
def EmailStore.select_email (s : EmailStore) (email_index : Nat) : EmailStore :=
  if email_index < s.get_current_folder.emails.length then
    { s with selected_email := some email_index }
  else s

/-- `EmailStore::get_selected_email`: the only accessor that triggers the lazy
`HeadersOnly → FullyLoaded` upgrade; it mutates the store (the email is
re-written in place) and returns the loaded email, or `none` when nothing is
selected, the index is dangling, or loading fails. -/
def EmailStore.get_selected_email (fs : FSNode) (s : EmailStore) :
    EmailStore × Option Email :=
  match s.selected_email with
  | none => (s, none)
  | some index =>
    match (s.get_current_folder.emails.get? index) with
    | none => (s, none)
    | some email =>
      match email.ensure_fully_loaded fs with
      | Except.error _ => (s, none)
      | Except.ok e' =>
        ({ s with
            root_folder := s.root_folder.modifyClamped s.current_folder
              (fun f => f.setEmails (f.emails.set index e')) },
          some e')

/-- `EmailStore::get_selected_email_headers`: the read-only sibling accessor,
no mutation and no lazy upgrade. -/
def EmailStore.get_selected_email_headers (s : EmailStore) : Option Email :=
  s.selected_email.bind (fun index => s.get_current_folder.emails.get? index)

/-- `EmailStore::get_folder_at_path`. -/
def EmailStore.get_folder_at_path (s : EmailStore) (path : List Nat) : Option Folder :=
  s.root_folder.getAtPath path

/-- `AppState` of `app.rs`. -/
inductive AppState where
  | FolderView
  | EmailList
  | EmailContent
  | AttachmentView
  | Help
  | Quit
deriving DecidableEq, Fintype

/-- `View` of `app.rs`. -/
inductive View where
  | FolderMessages
  | MessagesContent
  | Content
  | Messages
  | MessagesAttachments
deriving DecidableEq, Fintype

/-- `ActivePane` of `app.rs`. -/
inductive ActivePane where
  | Folders
  | Messages
  | Content
  | Attachments
deriving DecidableEq, Fintype

/-- `PaneSwitchDirection` of `app.rs`. -/
inductive PaneSwitchDirection where
  | Left
  | Right
deriving DecidableEq

/-- `View::get_available_panes`. -/
def View.get_available_panes (v : View) (content_hidden : Bool) : List ActivePane :=
  if content_hidden then
    match v with
    | View.FolderMessages => [ActivePane.Folders, ActivePane.Messages]
    | View.Messages => [ActivePane.Messages]
    | View.MessagesAttachments => [ActivePane.Messages, ActivePane.Attachments]
    | _ => [ActivePane.Messages]
  else
    match v with
    | View.FolderMessages => [ActivePane.Folders, ActivePane.Messages]
    | View.MessagesContent => [ActivePane.Messages, ActivePane.Content]
    | View.Content => [ActivePane.Content]
    | _ => [ActivePane.Messages]

/-- `View::get_default_active_pane`. -/
def View.get_default_active_pane (v : View) (content_hidden : Bool) : ActivePane :=
  if content_hidden then
    match v with
    | View.FolderMessages => ActivePane.Folders
    | View.Messages => ActivePane.Messages
    | View.MessagesAttachments => ActivePane.Attachments
    | _ => ActivePane.Messages
  else
    match v with
    | View.FolderMessages => ActivePane.Folders
    | View.MessagesContent => ActivePane.Messages
    | View.Content => ActivePane.Content
    | _ => ActivePane.Messages

/-- `View::next_view` (no wraparound). -/
def View.next_view (v : View) (content_hidden : Bool) : Option View :=
  if content_hidden then
    match v with
    | View.FolderMessages => some View.Messages
    | View.Messages => some View.MessagesAttachments
    | View.MessagesAttachments => none
    | _ => none
  else
    match v with
    | View.FolderMessages => some View.MessagesContent
    | View.MessagesContent => some View.Content
    | View.Content => none
    | _ => none

/-- `View::prev_view` (no wraparound). -/
def View.prev_view (v : View) (content_hidden : Bool) : Option View :=
  if content_hidden then
    match v with
    | View.MessagesAttachments => some View.Messages
    | View.Messages => some View.FolderMessages
    | View.FolderMessages => none
    | _ => none
  else
    match v with
    | View.Content => some View.MessagesContent
    | View.MessagesContent => some View.FolderMessages
    | View.FolderMessages => none
    | _ => none

/-- `SelectionState` of `app.rs` (with its `Default` values). -/
structure SelectionState where
  folder_index : Nat := 0
  email_index : Nat := 0
  scroll_offset : Nat := 0
  attachment_index : Nat := 0
  remembered_email_index : Option Nat := none
deriving DecidableEq

/-- `MaildirScanner` of `maildir.rs` (holds only the root path; the
filesystem itself is passed to its methods). -/
structure MaildirScanner where
  root_path : List String

/-- `App` of `app.rs`. -/
structure App where
  state : AppState
  active_pane : ActivePane
  current_view : View
  content_pane_hidden : Bool
  selection : SelectionState
  email_store : EmailStore
  scanner : MaildirScanner
  should_quit : Bool
  status_message : Option String
  message_pane_visible_rows : Nat
  initial_loading_done : Bool

/-- `App::set_state`: side effects on `should_quit` and `active_pane` for the
relevant target states, then the state field itself is set. -/
def App.set_state (a : App) (new_state : AppState) : App :=
  let a1 :=
    match new_state with
    | AppState.Quit => { a with should_quit := true }
    | AppState.EmailList =>
      if (a.current_view.get_available_panes a.content_pane_hidden).contains ActivePane.Messages
      then { a with active_pane := ActivePane.Messages } else a
    | AppState.EmailContent =>
      if (a.current_view.get_available_panes a.content_pane_hidden).contains ActivePane.Content
      then { a with active_pane := ActivePane.Content } else a
    | _ => a
  { a1 with state := new_state }

/-- The restore-or-select-first block shared verbatim by
`App::switch_pane` (Folders → Messages arm) and `App::next_view`
(FolderMessages → MessagesContent arm): restore `remembered_email_index` or
select the first email, then reload via `get_selected_email` and enter
`EmailContent` when something is selected. -/
def App.restoreRememberedSelection (fs : FSNode) (a : App) : App :=
  let a2 :=
    match a.selection.remembered_email_index with
    | some remembered_index =>
      { a with
        selection := { a.selection with email_index := remembered_index }
        email_store := a.email_store.select_email remembered_index }
    | none =>
      if a.email_store.get_current_folder.emails.isEmpty then a
      else
        { a with
          selection := { a.selection with email_index := 0 }
          email_store := a.email_store.select_email 0 }
  let res := a2.email_store.get_selected_email fs
  let a3 := { a2 with email_store := res.fst }
  if res.snd.isSome then a3.set_state AppState.EmailContent else a3

/-- The remember-and-clear block shared verbatim by `App::switch_pane`
(Messages → Folders arm) and `App::prev_view` (MessagesContent →
FolderMessages arm): snapshot the selection if present, then clear it. -/
def App.rememberAndClearSelection (a : App) : App :=
  let a2 :=
    if a.email_store.selected_email.isSome then
      { a with
        selection := { a.selection with remembered_email_index := some a.selection.email_index } }
    else a
  { a2 with email_store := { a2.email_store with selected_email := none } }

/-- `App::switch_pane`. -/
def App.switch_pane (fs : FSNode) (a : App) (direction : PaneSwitchDirection) : App :=
  let available_panes := a.current_view.get_available_panes a.content_pane_hidden
  if available_panes.isEmpty then a
  else
    let current_index := (available_panes.findIdx? (fun p => p == a.active_pane)).getD 0
    let new_index :=
      match direction with
      | PaneSwitchDirection.Left =>
        if current_index > 0 then current_index - 1 else available_panes.length - 1
      | PaneSwitchDirection.Right =>
        if current_index < available_panes.length - 1 then current_index + 1 else 0
    let old_pane := a.active_pane
    let new_pane := available_panes.getD new_index a.active_pane
    let a1 :=
      match old_pane, new_pane with
      | ActivePane.Messages, ActivePane.Folders => a.rememberAndClearSelection
      | ActivePane.Folders, ActivePane.Messages => a.restoreRememberedSelection fs
      | _, _ => a
    { a1 with active_pane := new_pane }

/-- `App::next_view` (the `l` key). -/
def App.next_view (fs : FSNode) (a : App) : App :=
  match a.current_view.next_view a.content_pane_hidden with
  | none => a
  | some new_view =>
    let a1 :=
      match a.current_view, new_view with
      | View.FolderMessages, View.MessagesContent => a.restoreRememberedSelection fs
      | _, _ => a
    { a1 with
      current_view := new_view
      active_pane := new_view.get_default_active_pane a1.content_pane_hidden }

/-- `App::prev_view` (the `h` key). -/
def App.prev_view (a : App) : App :=
  match a.current_view.prev_view a.content_pane_hidden with
  | none => a
  | some new_view =>
    let a1 :=
      match a.current_view, new_view with
      | View.MessagesContent, View.FolderMessages => a.rememberAndClearSelection
      | _, _ => a
    { a1 with
      current_view := new_view
      active_pane := new_view.get_default_active_pane a1.content_pane_hidden }

/-- `App::toggle_content_pane` (the `M-c` key). -/
def App.toggle_content_pane (a : App) : App :=
  let content_pane_hidden := !a.content_pane_hidden
  let current_view :=
    if content_pane_hidden then
      match a.current_view with
      | View.MessagesContent => View.Messages
      | View.Content => View.Messages
      | View.FolderMessages => View.FolderMessages
      | _ => View.Messages
    else
      match a.current_view with
      | View.Messages => View.MessagesContent
      | View.MessagesAttachments => View.MessagesContent
      | View.FolderMessages => View.FolderMessages
      | _ => View.MessagesContent
  { a with
    content_pane_hidden := content_pane_hidden
    current_view := current_view
    active_pane := current_view.get_default_active_pane content_pane_hidden }

/-- `App::get_current_email_for_web`: `None` while browsing folders, otherwise
the read-only headers accessor. -/
def App.get_current_email_for_web (a : App) : Option Email :=
  match a.active_pane with
  | ActivePane.Folders => none
  | ActivePane.Messages => a.email_store.get_selected_email_headers
  | ActivePane.Content => a.email_store.get_selected_email_headers
  | ActivePane.Attachments => a.email_store.get_selected_email_headers

/-- ASCII-only case-insensitive comparison, as `str::eq_ignore_ascii_case`. -/
def asciiLowerChar (c : Char) : Char :=
  if 'A' ≤ c ∧ c ≤ 'Z' then Char.ofNat (c.toNat + 32) else c

/-- String version of `str::eq_ignore_ascii_case`. -/
def eqIgnoreAsciiCase (s t : String) : Bool :=
  s.data.map asciiLowerChar == t.data.map asciiLowerChar

/-- `App::find_inbox_folder`: first sorted subfolder whose display name is
`"inbox"` up to ASCII case, else the first folder when any exists. -/
def App.find_inbox_folder (a : App) : Option Nat :=
  let root_folder := a.email_store.root_folder
  match root_folder.get_sorted_subfolders.findIdx?
      (fun subfolder => eqIgnoreAsciiCase subfolder.get_display_name "inbox") with
  | some index => some index
  | none => if root_folder.subfolders.isEmpty then none else some 0

/-- `App::auto_select_inbox_without_loading`. -/
def App.auto_select_inbox_without_loading (a : App) : App :=
  match a.find_inbox_folder with
  | some inbox_index => { a with selection := { a.selection with folder_index := inbox_index } }
  | none => a

/-- `App::new`. -/
def App.new (email_store : EmailStore) (scanner : MaildirScanner) : App :=
  App.auto_select_inbox_without_loading
    { state := AppState.FolderView
      active_pane := ActivePane.Folders
      current_view := View.FolderMessages
      content_pane_hidden := false
      selection := {}
      email_store := email_store
      scanner := scanner
      should_quit := false
      status_message := none
      message_pane_visible_rows := 20
      initial_loading_done := false }

/-- `MaildirScanner::is_email_file` restricted to the file name (the caller
has already established that the entry is a regular file). -/
def MaildirScanner.is_email_file (filename : String) : Bool :=
  if strStartsWith filename "." then false
  else if strEndsWith filename ".lock" || strEndsWith filename ".tmp" then false
  else true

mutual

/-- `MaildirScanner::scan_folder_structure_only`: recursively discover
subdirectories, skipping the reserved `cur`/`new`/`tmp` names and hidden
entries; no email is ever added.  Reading a non-directory yields no entries,
like the ignored `fs::read_dir` failure in the source. -/
def MaildirScanner.scan_folder_structure_only (path : List String) (folder : Folder) :
    FSNode → Folder
  | FSNode.file _ => folder
  | FSNode.dir entries => MaildirScanner.scanStructureEntries path folder entries

/-- The entry loop of `scan_folder_structure_only`. -/
def MaildirScanner.scanStructureEntries (path : List String) (folder : Folder) :
    List (String × FSNode) → Folder
  | [] => folder
  | (dir_name, node) :: rest =>
    let folder' :=
      match node with
      | FSNode.file _ => folder
      | FSNode.dir sub_entries =>
        if dir_name = "cur" ∨ dir_name = "new" ∨ dir_name = "tmp" then folder
        else if strStartsWith dir_name "." then folder
        else
          folder.add_subfolder
            (MaildirScanner.scan_folder_structure_only (path ++ [dir_name])
              (Folder.new dir_name (path ++ [dir_name])) (FSNode.dir sub_entries))
    MaildirScanner.scanStructureEntries path folder' rest

end

/-- The body of the per-file branch of `MaildirScanner::scan_emails_in_folder`:
build the email tagged with `is_unread` from the physical subdirectory name,
parse it fully, and on a parse failure produce the placeholder with the
synthetic subject.  (The source also assigns a `body_markdown` field in the
failure branch which does not exist on the `Email` struct of `email.rs`; it is
omitted here.) -/
def MaildirScanner.email_from_entry (fs : FSNode) (dir_path : List String)
    (filename : String) : Email :=
  let is_unread := dir_path.getLast? == some "new"
  let email := { Email.new (dir_path ++ [filename]) with is_unread := is_unread }
  match email.parse_from_file fs with
  | Except.ok parsed => parsed
  | Except.error e =>
    { email with
      headers := { email.headers with subject := "Parse Error: " ++ e }
      body_text := "Failed to parse email from "
        ++ String.intercalate "/" (dir_path ++ [filename]) ++ ": " ++ e }

/-- `MaildirScanner::scan_emails_in_folder`: walk the immediate entries of one
physical subdirectory, keep the regular files passing `is_email_file`, and add
each of them to the folder (a missing or non-directory path is skipped). -/
def MaildirScanner.scan_emails_in_folder (fs : FSNode) (folder : Folder)
    (dir_path : List String) : Folder :=
  match fs.lookup dir_path with
  | some (FSNode.dir entries) =>
    entries.foldl
      (fun acc e =>
        match e.snd with
        | FSNode.file _ =>
          if MaildirScanner.is_email_file e.fst then
            acc.add_email (MaildirScanner.email_from_entry fs dir_path e.fst)
          else acc
        | FSNode.dir _ => acc)
      folder
  | _ => folder

/-- `MaildirScanner::load_folder_emails`: a no-op on an already loaded folder;
otherwise, when the folder is a maildir folder (has `cur`, `new` and `tmp`),
scan `cur` then `new`, and in every case mark the folder loaded. -/
def MaildirScanner.load_folder_emails (fs : FSNode) (folder : Folder) : Folder :=
  if folder.is_loaded then folder
  else
    let cur_path := folder.path ++ ["cur"]
    let new_path := folder.path ++ ["new"]
    let tmp_path := folder.path ++ ["tmp"]
    let is_maildir := (fs.lookup cur_path).isSome && (fs.lookup new_path).isSome
      && (fs.lookup tmp_path).isSome
    let folder1 :=
      if is_maildir then
        MaildirScanner.scan_emails_in_folder fs
          (MaildirScanner.scan_emails_in_folder fs folder cur_path) new_path
      else folder
    folder1.setIsLoaded true

/-- The filtered message files of one physical subdirectory, in directory
order, already built into emails: `scan_emails_in_folder` adds exactly these. -/
def MaildirScanner.emails_in_dir (fs : FSNode) (dir_path : List String) : List Email :=
  match fs.lookup dir_path with
  | some (FSNode.dir entries) =>
    (entries.filter (fun e =>
        (match e.snd with | FSNode.file _ => true | FSNode.dir _ => false)
          && MaildirScanner.is_email_file e.fst)).map
      (fun e => MaildirScanner.email_from_entry fs dir_path e.fst)
  | _ => []

/-- Modelled from the spec: `MaildirScanner::load_folder_emails_with_limit` is
called from `email.rs` but its definition is not among the provided sources.
Per §4.2/§4.3 of the specification it behaves like a full load but stops after
`limit` messages combined across the seen and unseen subtrees, and it does not
mark `loaded = true`. -/
def MaildirScanner.load_folder_emails_with_limit (fs : FSNode) (folder : Folder)
    (limit : Option Nat) : Folder :=
  if folder.is_loaded then folder
  else
    let cur_path := folder.path ++ ["cur"]
    let new_path := folder.path ++ ["new"]
    let tmp_path := folder.path ++ ["tmp"]
    let is_maildir := (fs.lookup cur_path).isSome && (fs.lookup new_path).isSome
      && (fs.lookup tmp_path).isSome
    if is_maildir then
      let files := MaildirScanner.emails_in_dir fs cur_path
        ++ MaildirScanner.emails_in_dir fs new_path
      let capped := match limit with
        | some n => files.take n
        | none => files
      capped.foldl Folder.add_email folder
    else folder

/-- `MaildirScanner::scan`: validate the root path, build the structure-only
tree, then immediately fully load a top-level subfolder literally named
`INBOX` when one exists. -/
def MaildirScanner.scan (s : MaildirScanner) (fs : FSNode) : Except String Folder :=
  match fs.lookup s.root_path with
  | none =>
    Except.error ("MailDir path does not exist: " ++ String.intercalate "/" s.root_path)
  | some (FSNode.file _) =>
    Except.error ("MailDir path is not a directory: " ++ String.intercalate "/" s.root_path)
  | some (FSNode.dir entries) =>
    let root_folder := MaildirScanner.scan_folder_structure_only s.root_path
      (Folder.new "Mail" s.root_path) (FSNode.dir entries)
    match root_folder.subfolders.findIdx? (fun f => f.name == "INBOX") with
    | some inbox_index =>
      Except.ok (root_folder.setSubfolders
        (root_folder.subfolders.set inbox_index
          (MaildirScanner.load_folder_emails fs
            (root_folder.subfolders.getD inbox_index (Folder.new "Mail" s.root_path)))))
    | none => Except.ok root_folder

/-- Recursive emptiness of all message lists in a folder tree (used to state
what a structure-only scan produces). -/
def Folder.allEmailsEmptyB : Folder → Bool
  | Folder.mk _ _ emails subs _ _ _ =>
    emails.isEmpty && subs.attach.all (fun g => Folder.allEmailsEmptyB g.1)
decreasing_by
  have h3 := List.sizeOf_lt_of_mem g.2
  simp only [Folder.mk.sizeOf_spec]
  omega

/-- `build_flat_folder_list` of `input.rs`: depth-first flattening in sorted
order, excluding the root (depth `0`). -/
def build_flat_folder_list (folder : Folder) (depth : Nat) : List (Folder × Nat) :=
  (if depth > 0 then [(folder, depth)] else [])
    ++ folder.get_sorted_subfolders.attach.flatMap
        (fun sub => build_flat_folder_list sub.1 (depth + 1))
termination_by sizeOf folder
decreasing_by
  have h1 : sub.1 ∈ folder.subfolders := by
    have h2 := sub.2
    simpa [Folder.get_sorted_subfolders] using h2
  cases folder with
  | mk n p es subs u t l =>
    simp only [Folder.subfolders] at h1
    have h3 := List.sizeOf_lt_of_mem h1
    simp only [Folder.mk.sizeOf_spec]
    omega

mutual

/-- `find_folder_path` of `input.rs`: depth-first search for the target
folder, returning the path of raw child indices (the source compares node
identity with `ptr::eq`; in this embedding structural equality plays that
role and the search returns the first structurally equal node). -/
def find_folder_path (current target : Folder) : Option (List Nat) :=
  if current = target then some []
  else findPathInChildren target current.subfolders 0
termination_by sizeOf current
decreasing_by
  cases current with
  | mk n p es subs u t l =>
    simp only [Folder.subfolders, Folder.mk.sizeOf_spec]
    omega

/-- The enumerated child loop of `find_folder_path` (index `start` is the
position of the first list element within the full `subfolders` list). -/
def findPathInChildren (target : Folder) (subs : List Folder) (start : Nat) :
    Option (List Nat) :=
  match subs with
  | [] => none
  | g :: rest =>
    match find_folder_path g target with
    | some path => some (start :: path)
    | none => findPathInChildren target rest (start + 1)
termination_by sizeOf subs
decreasing_by
  · simp only [List.cons.sizeOf_spec]; omega
  · simp only [List.cons.sizeOf_spec]; omega

end

/-- `get_folder_path_from_display_index` of `input.rs`. -/
def get_folder_path_from_display_index (folder : Folder) (display_index : Nat) :
    Option (List Nat) :=
  let flat_folders := build_flat_folder_list folder 0
  match flat_folders.get? display_index with
  | some target => find_folder_path folder target.fst
  | none => none

/-- The documented view sequence for one content-visibility mode. -/
def viewSequence (content_hidden : Bool) : List View :=
  if content_hidden then [View.FolderMessages, View.Messages, View.MessagesAttachments]
  else [View.FolderMessages, View.MessagesContent, View.Content]

/-- The terminal view of the active sequence. -/
def terminalView (content_hidden : Bool) : View :=
  if content_hidden then View.MessagesAttachments else View.Content

/-- Adjacency (one forward step) inside the documented view sequence. -/
def adjacentInSequence (content_hidden : Bool) (v w : View) : Prop :=
  (v, w) ∈ (viewSequence content_hidden).zip (viewSequence content_hidden).tail

instance (content_hidden : Bool) (v w : View) :
    Decidable (adjacentInSequence content_hidden v w) := by
  unfold adjacentInSequence; infer_instance

/-- The parsing operations of the claim about load-state monotonicity that
never regress the load state (the amended operation set). -/
inductive ForwardParseOp where
  | parseFromFile
  | ensureFullyLoaded

/-- Run one parsing operation the way the Rust callers do: on `Err` the email
is left as it was (`parse_from_file` mutates nothing on failure). -/
def runForwardParseOp (fs : FSNode) (e : Email) : ForwardParseOp → Email
  | ForwardParseOp.parseFromFile =>
    match e.parse_from_file fs with
    | Except.ok r => r
    | Except.error _ => e
  | ForwardParseOp.ensureFullyLoaded =>
    match e.ensure_fully_loaded fs with
    | Except.ok r => r
    | Except.error _ => e

/-- Run a sequence of parsing operations. -/
def runForwardParseOps (fs : FSNode) (e : Email) (ops : List ForwardParseOp) : Email :=
  ops.foldl (runForwardParseOp fs) e

/-- A parsed message with every optional part absent (a minimal message the
external parser accepts). -/
def pmEmpty : ParsedMessage where
  fromAddr := none
  toAddr := none
  subject := none
  date := none
  message_id := none
  bodyText := none
  bodyHtml := none
  attachments := []

/-- Fixture for the load-state claim: one parseable file named `m`. -/
def loadStateFS : FSNode :=
  FSNode.dir [("m", FSNode.file (Except.ok (some pmEmpty)))]

/-- Fixture for the load-state claim: a fully loaded email backed by `m`. -/
def loadStateEmail : Email :=
  { Email.new ["m"] with load_state := EmailLoadState.FullyLoaded }

/-- Fixture for the reload claim: a maildir folder `F` whose `cur` holds 25
parseable message files and whose `new` is empty. -/
def reloadFS : FSNode :=
  FSNode.dir
    [("F", FSNode.dir
      [("cur", FSNode.dir ((List.range 25).map
          (fun i => ("m" ++ toString i, FSNode.file (Except.ok (some pmEmpty)))))),
        ("new", FSNode.dir []),
        ("tmp", FSNode.dir [])])]

/-- Fixture for the reload claim: the in-memory folder for `F`, fresh. -/
def reloadFolder : Folder := Folder.new "F" ["F"]

/-- Fixture for the structure-only-scan claim: a root with an `INBOX` maildir
folder containing one parseable message in `cur`. -/
def scanFS : FSNode :=
  FSNode.dir
    [("INBOX", FSNode.dir
      [("cur", FSNode.dir [("m1", FSNode.file (Except.ok (some pmEmpty)))]),
        ("new", FSNode.dir []),
        ("tmp", FSNode.dir [])])]

/-- Fixture scanner whose root path is the filesystem root. -/
def scanScanner : MaildirScanner := { root_path := [] }

/-- The email that the eager INBOX load of `scan()` materializes from the
fixture message `m1`. -/
def scannedEmail : Email where
  headers := { from_ := "", to_ := "", subject := "(no subject)", date := "", message_id := "" }
  body_text := ""
  body_html := none
  attachments := []
  file_path := ["INBOX", "cur", "m1"]
  is_unread := false
  load_state := EmailLoadState.FullyLoaded

/-- The INBOX folder as it comes back from `scan()` on the fixture root. -/
def scannedInbox : Folder := Folder.mk "INBOX" ["INBOX"] [scannedEmail] [] 0 1 true

/-- An empty filesystem for fixtures that never touch the disk. -/
def emptyFS : FSNode := FSNode.dir []

/-- Fixture child folder for the flat-listing witness. -/
def flatChild : Folder := Folder.mk "A" ["A"] [] [] 0 0 false

/-- Fixture root folder with one child for the flat-listing witness. -/
def flatRoot : Folder := Folder.mk "Mail" [] [] [flatChild] 0 0 false

/-- Fixture for the toggle claim: the app state actually reached from startup
(empty store) by pressing `l` twice, which lands in the `Content` view with
the `Content` pane focused and the content pane shown. -/
def toggleApp : App :=
  App.next_view emptyFS (App.next_view emptyFS (App.new (EmailStore.new []) { root_path := [] }))

/-- Fixture for the ordering claim: children named `Alpha` and `inbox`
(the latter equal to `INBOX` only up to ASCII case). -/
def orderingFolder : Folder :=
  Folder.mk "Mail" [] []
    [Folder.mk "Alpha" ["Alpha"] [] [] 0 0 false,
      Folder.mk "inbox" ["inbox"] [] [] 0 0 false] 0 0 false

/-- Fixture for the ordering witness: an app whose root store has two
subfolders, `Zebra` and a unique `INBOX` with no unread messages. -/
def inboxApp : App :=
  App.new
    { root_folder :=
        Folder.mk "Mail" [] []
          [Folder.mk "Zebra" ["Zebra"] [] [] 0 0 false,
            Folder.mk "INBOX" ["INBOX"] [] [] 0 0 false] 0 0 false
      current_folder := []
      selected_email := none }
    { root_path := [] }

/-- Fixture entries for the parse-failure witness: a corrupt message file
first, a good one second. -/
def failEntries : List (String × FSNode) :=
  [("bad", FSNode.file (Except.ok none)),
    ("good", FSNode.file (Except.ok (some pmEmpty)))]

/-- Fixture filesystem for the parse-failure witness. -/
def failFS : FSNode := FSNode.dir [("cur", FSNode.dir failEntries)]

/-- Fixture folder for the parse-failure witness. -/
def failFolder : Folder := Folder.new "X" []

/-- Invariant for the selection-memory round trip: the app shows the
`MessagesContent` view with content visible and message `K` selected (both in
the store and in the selection bookkeeping), with `K` in bounds of the current
folder. -/
def RoundInv (a : App) (K : Nat) : Prop :=
  a.current_view = View.MessagesContent ∧
  a.content_pane_hidden = false ∧
  a.email_store.selected_email = some K ∧
  a.selection.email_index = K ∧
  K < a.email_store.get_current_folder.emails.length

/-- One round trip of the selection memory: step back with `h`, then forward
again with `l`. -/
def roundTripStep (fs : FSNode) (a : App) : App :=
  App.next_view fs (App.prev_view a)

/-- Fixture email for the selection-memory witness: a single message file. -/
def selEmail : Email := Email.new ["m"]

/-- Fixture store for the selection-memory witness: the current folder is the
root, which holds exactly one message, selected at index 0. -/
def selStore : EmailStore where
  root_folder := Folder.mk "Mail" [] [selEmail] [] 0 1 true
  current_folder := []
  selected_email := some 0

/-- Fixture app for the selection-memory witness: content shown, in the
`MessagesContent` view with message 0 selected. -/
def selApp : App where
  state := AppState.EmailContent
  active_pane := ActivePane.Messages
  current_view := View.MessagesContent
  content_pane_hidden := false
  selection := { email_index := 0 }
  email_store := selStore
  scanner := { root_path := [] }
  should_quit := false
  status_message := none
  message_pane_visible_rows := 20
  initial_loading_done := true

/-! ## Helper lemmas -/

/-- A successful full parse always leaves the email fully loaded. -/
theorem Email.parse_from_file_load_state {fs : FSNode} {e r : Email}
    (h : Email.parse_from_file fs e = Except.ok r) :
    r.load_state = EmailLoadState.FullyLoaded := by
  rcases h' : readParseAt fs e.file_path with s | m
  · simp [Email.parse_from_file, h'] at h
  · rcases m with _ | m
    · simp [Email.parse_from_file, h'] at h
    · simp [Email.parse_from_file, h'] at h
      subst h; rfl

/-! ## C4: next and previous views follow the documented sequences -/

/-- C4 (confirmed).  Within the view sequence of the active content-visibility
mode, `View::next_view` is `none` exactly at the terminal view and
`View::prev_view` is `none` exactly at `FolderMessages`; moreover every `some`
result is the view one step along that sequence (hence never a view outside
of it). -/
theorem next_prev_view_terminal_edges :
    ∀ (content_hidden : Bool) (v : View),
      (v ∈ viewSequence content_hidden →
        ((View.next_view v content_hidden = none ↔ v = terminalView content_hidden) ∧
          (View.prev_view v content_hidden = none ↔ v = View.FolderMessages))) ∧
      (∀ w, View.next_view v content_hidden = some w → adjacentInSequence content_hidden v w) ∧
      (∀ w, View.prev_view v content_hidden = some w → adjacentInSequence content_hidden w v) := by
  decide

/-- Witness for C4 at the terminal view of the content-shown sequence. -/
theorem next_prev_view_terminal_edges_witness :
    View.Content ∈ viewSequence false ∧
      (View.next_view View.Content false = none ↔ View.Content = terminalView false) :=
  ⟨by decide, ((next_prev_view_terminal_edges false View.Content).1 (by decide)).1⟩

/-! ## C10: the web mirror is a pure read -/

/-- C10 (confirmed).  `App::get_current_email_for_web` is `none` whenever the
folder pane is active; on every other pane it is exactly the read-only headers
accessor, and whatever email it returns is the stored email itself (same load
state, no lazy upgrade) — the function does not mutate the app at all, which
the embedding expresses by its type `App → Option Email`. -/
theorem web_email_none_iff_folders_pane :
    ∀ a : App,
      (a.active_pane = ActivePane.Folders → a.get_current_email_for_web = none) ∧
      (a.active_pane ≠ ActivePane.Folders →
        a.get_current_email_for_web = a.email_store.get_selected_email_headers) ∧
      (∀ e, a.get_current_email_for_web = some e →
        ∃ index, a.email_store.selected_email = some index ∧
          a.email_store.get_current_folder.emails.get? index = some e) := by
  intro a
  refine ⟨?_, ?_, ?_⟩
  · intro h
    simp [App.get_current_email_for_web, h]
  · intro h
    rcases hp : a.active_pane <;> simp [App.get_current_email_for_web, hp] <;> exact absurd hp h
  · intro e he
    rcases hp : a.active_pane <;>
      simp [App.get_current_email_for_web, hp, EmailStore.get_selected_email_headers,
        Option.bind_eq_some] at he <;>
      simpa [List.get?_eq_getElem?] using he

/-- Witness for C10: on the fixture app focused on the message pane, the web
accessor returns the read-only headers accessor result. -/
theorem web_email_none_iff_folders_pane_witness :
    selApp.active_pane ≠ ActivePane.Folders ∧
      selApp.get_current_email_for_web = selApp.email_store.get_selected_email_headers :=
  ⟨by decide, ((web_email_none_iff_folders_pane selApp).2.1 (by decide))⟩

/-! ## C8: the load state never moves backwards (corrected) -/

/-- Counterexample to C8 as stated: `parse_headers_only` is one of the three
parsing operations named by the claim, and applying it to a fully loaded email
whose file parses successfully yields an email whose `load_state` is back to
`HeadersOnly`. -/
theorem load_state_counterexample :
    loadStateEmail.load_state = EmailLoadState.FullyLoaded ∧
      ∃ e', Email.parse_headers_only loadStateFS loadStateEmail = Except.ok e' ∧
        e'.load_state = EmailLoadState.HeadersOnly := by
  exact ⟨rfl, ⟨_, rfl, rfl⟩⟩

/-- C8 (amended).  Under `parse_from_file` and `ensure_fully_loaded` — the two
parsing operations the running program applies to already-materialized emails
— the load state never regresses: no sequence of them takes a `FullyLoaded`
email back to `HeadersOnly`.  `parse_headers_only`, however, resets the load
state to `HeadersOnly` whenever it succeeds. -/
theorem load_state_forward_only :
    (∀ (fs : FSNode) (e : Email) (ops : List ForwardParseOp),
        e.load_state = EmailLoadState.FullyLoaded →
        (runForwardParseOps fs e ops).load_state = EmailLoadState.FullyLoaded) ∧
    (∀ (fs : FSNode) (e e' : Email),
        Email.parse_headers_only fs e = Except.ok e' →
        e'.load_state = EmailLoadState.HeadersOnly) := by
  constructor
  · intro fs e ops h
    induction ops generalizing e with
    | nil => exact h
    | cons op rest ih =>
      refine ih (runForwardParseOp fs e op) ?_
      cases op with
      | parseFromFile =>
        rcases h' : e.parse_from_file fs with s | r
        · simpa [runForwardParseOp, h'] using h
        · simpa [runForwardParseOp, h'] using Email.parse_from_file_load_state h'
      | ensureFullyLoaded =>
        simp [runForwardParseOp, Email.ensure_fully_loaded, h]
  · intro fs e e' h
    rcases h' : readParseAt fs e.file_path with s | m
    · simp [Email.parse_headers_only, h'] at h
    · rcases m with _ | m
      · simp [Email.parse_headers_only, h'] at h
      · simp [Email.parse_headers_only, h'] at h
        subst h; rfl

/-- Witness for C8 (amended): running both forward operations on the fixture
fully loaded email keeps it fully loaded. -/
theorem load_state_forward_only_witness :
    loadStateEmail.load_state = EmailLoadState.FullyLoaded ∧
      (runForwardParseOps loadStateFS loadStateEmail
        [ForwardParseOp.parseFromFile, ForwardParseOp.ensureFullyLoaded]).load_state
        = EmailLoadState.FullyLoaded :=
  ⟨rfl, (load_state_forward_only.1 loadStateFS loadStateEmail
    [ForwardParseOp.parseFromFile, ForwardParseOp.ensureFullyLoaded] rfl)⟩

/-! ## C5: double toggle of the content pane (corrected) -/

/-- Counterexample to C5 as stated: the app state reached from startup by
pressing `l` twice (view `Content`, pane `Content`, content shown) does not
return to its pre-toggle `current_view` after toggling the content pane twice
with no other mutation — it lands in `MessagesContent` instead. -/
theorem toggle_content_pane_counterexample :
    toggleApp.current_view = View.Content ∧ toggleApp.active_pane = ActivePane.Content ∧
      toggleApp.content_pane_hidden = false ∧
      toggleApp.toggle_content_pane.toggle_content_pane.current_view = View.MessagesContent ∧
      toggleApp.toggle_content_pane.toggle_content_pane.current_view ≠ toggleApp.current_view := by
  refine ⟨rfl, rfl, rfl, rfl, ?_⟩
  decide

/-- C5 (amended).  Toggling the content pane twice in succession restores
`current_view` and `active_pane` exactly when the state was `FolderMessages`
with the folder pane focused, `MessagesContent` (content shown) with the
message pane focused, or `Messages` (content hidden) with the message pane
focused; in particular it holds whenever the view is not the terminal view of
its sequence and the active pane is the default pane of the view. -/
theorem toggle_content_pane_double_toggle :
    ∀ a : App,
      (a.toggle_content_pane.toggle_content_pane.current_view = a.current_view ∧
        a.toggle_content_pane.toggle_content_pane.active_pane = a.active_pane) ↔
      ((a.current_view = View.FolderMessages ∧ a.active_pane = ActivePane.Folders) ∨
        (a.content_pane_hidden = false ∧ a.current_view = View.MessagesContent ∧
          a.active_pane = ActivePane.Messages) ∨
        (a.content_pane_hidden = true ∧ a.current_view = View.Messages ∧
          a.active_pane = ActivePane.Messages)) := by
  intro a
  rcases a with ⟨st, pane, view, hidden, sel, store, sc, q, msg, rows, init⟩
  cases view <;> cases pane <;> cases hidden <;>
    simp only [App.toggle_content_pane] <;> decide

/-! ## C6: folder display ordering (corrected) -/

/-- Characterization of the total preorder behind the sort comparator. -/
theorem folderLe_iff (a b : Folder) :
    folderLe a b ↔ (a.name = "INBOX" ∨ (b.name ≠ "INBOX" ∧ a.name.data ≤ b.name.data)) := by
  unfold folderLe folderCmp
  split_ifs with h1 h2 h3 h4
  · simp [h1]
  · simp [h1, h2]
  · simp [h1, h2, le_of_lt h3]
  · simp [h1, h2, le_of_eq (congrArg String.data h4)]
  · constructor
    · intro h; exact absurd rfl h
    · rintro (h | ⟨hb, hle⟩)
      · exact absurd h h1
      · rcases lt_or_eq_of_le hle with h' | h'
        · exact absurd h' h3
        · exact absurd (String.ext h') h4

/-- The comparator relation is total. -/
theorem folderLe_total (a b : Folder) : folderLe a b ∨ folderLe b a := by
  rw [folderLe_iff, folderLe_iff]
  by_cases h1 : a.name = "INBOX"
  · exact Or.inl (Or.inl h1)
  by_cases h2 : b.name = "INBOX"
  · exact Or.inr (Or.inl h2)
  rcases le_total a.name.data b.name.data with h | h
  · exact Or.inl (Or.inr ⟨h2, h⟩)
  · exact Or.inr (Or.inr ⟨h1, h⟩)

/-- The comparator relation is transitive. -/
theorem folderLe_trans (a b c : Folder) (hab : folderLe a b) (hbc : folderLe b c) :
    folderLe a c := by
  rw [folderLe_iff] at hab hbc ⊢
  rcases hab with h | ⟨hb, hab⟩
  · exact Or.inl h
  rcases hbc with h | ⟨hc, hbc⟩
  · exact absurd h hb
  · exact Or.inr ⟨hc, le_trans hab hbc⟩

/-- Eliminating `attach` under a `flatMap` of the underlying values. -/
theorem attach_flatMap_eq {α β : Type _} (l : List α) (f : α → List β) :
    l.attach.flatMap (fun s => f s.1) = l.flatMap f := by
  rw [List.flatMap_def, List.flatMap_def, List.attach_map_coe]

/-- One-step unfolding of the flat folder listing, with `attach` removed. -/
theorem build_flat_folder_list_eq (f : Folder) (d : Nat) :
    build_flat_folder_list f d =
      (if d > 0 then [(f, d)] else [])
        ++ f.get_sorted_subfolders.flatMap (fun g => build_flat_folder_list g (d + 1)) := by
  rw [build_flat_folder_list]
  exact congrArg (fun t => (if d > 0 then [(f, d)] else []) ++ t)
    (attach_flatMap_eq f.get_sorted_subfolders (fun g => build_flat_folder_list g (d + 1)))

/-- The sorted subfolder list starts with a folder literally named `INBOX`
whenever one of the children is so named. -/
theorem get_sorted_subfolders_head_inbox {f g : Folder} (hg : g ∈ f.subfolders)
    (hname : g.name = "INBOX") :
    ∃ h0, f.get_sorted_subfolders.head? = some h0 ∧ h0.name = "INBOX" := by
  haveI : IsTotal Folder folderLe := ⟨folderLe_total⟩
  haveI : IsTrans Folder folderLe := ⟨folderLe_trans⟩
  have hs : List.Sorted folderLe f.get_sorted_subfolders :=
    List.sorted_insertionSort folderLe f.subfolders
  have hmem : g ∈ f.get_sorted_subfolders := by
    simpa [Folder.get_sorted_subfolders, List.mem_insertionSort] using hg
  rcases heq : f.get_sorted_subfolders with _ | ⟨h0, t⟩
  · rw [heq] at hmem; cases hmem
  · rw [heq] at hs hmem
    refine ⟨h0, rfl, ?_⟩
    rcases List.mem_cons.mp hmem with h | h
    · rw [← h]; exact hname
    · have hle : folderLe h0 g := (List.sorted_cons.mp hs).1 g h
      rcases (folderLe_iff h0 g).mp hle with h' | ⟨h', _⟩
      · exact h'
      · exact absurd hname h'

/-- Counterexample to C6 as stated: with children named `Alpha` and `inbox`,
the child `inbox` matches the primary inbox name `INBOX` up to ASCII case yet
is sorted after `Alpha` — the INBOX exception of the comparator is
case-sensitive, not case-insensitive. -/
theorem folder_ordering_counterexample :
    orderingFolder.get_sorted_subfolders.map Folder.name = ["Alpha", "inbox"] ∧
      eqIgnoreAsciiCase "inbox" "INBOX" = true ∧
      orderingFolder.get_sorted_subfolders.head?.map Folder.name ≠ some "inbox" := by
  refine ⟨by decide, by decide, by decide⟩

/-- C6 (amended).  `Folder::get_sorted_subfolders` permutes the children into
the total preorder `folderLe`: lexicographically by the raw folder name (which
equals the display name when there are no unread messages), except that a
child named exactly `INBOX` — case-sensitively — is always placed first.  The
flat folder listing enumerates children of every node in exactly this sorted
order, and `App::find_inbox_folder` scans the same sorted order (so a unique
top-level `INBOX` without unread messages is found at sorted index 0). -/
theorem folder_ordering_inbox_first :
    (∀ f : Folder,
      f.get_sorted_subfolders.Perm f.subfolders ∧
      f.get_sorted_subfolders.Pairwise folderLe ∧
      (∀ g ∈ f.subfolders, g.name = "INBOX" →
        ∃ h0, f.get_sorted_subfolders.head? = some h0 ∧ h0.name = "INBOX")) ∧
    (∀ f : Folder, build_flat_folder_list f 0 =
      f.get_sorted_subfolders.flatMap (fun g => build_flat_folder_list g 1)) ∧
    (∀ (a : App) (g : Folder),
      g ∈ a.email_store.root_folder.subfolders → g.name = "INBOX" →
      g.unread_count = 0 →
      (∀ g' ∈ a.email_store.root_folder.subfolders, g'.name = "INBOX" → g' = g) →
      a.find_inbox_folder = some 0) := by
  haveI : IsTotal Folder folderLe := ⟨folderLe_total⟩
  haveI : IsTrans Folder folderLe := ⟨folderLe_trans⟩
  refine ⟨?_, ?_, ?_⟩
  · intro f
    refine ⟨List.perm_insertionSort folderLe f.subfolders,
      List.sorted_insertionSort folderLe f.subfolders, ?_⟩
    intro g hg hname
    exact get_sorted_subfolders_head_inbox hg hname
  · intro f
    rw [build_flat_folder_list_eq]
    simp
  · intro a g hg hname hunread huniq
    obtain ⟨h0, hhead, h0name⟩ := get_sorted_subfolders_head_inbox hg hname
    have h0mem : h0 ∈ a.email_store.root_folder.get_sorted_subfolders :=
      List.mem_of_mem_head? (by rw [hhead]; exact Option.mem_def.mpr rfl)
    have h0mem' : h0 ∈ a.email_store.root_folder.subfolders := by
      simpa [Folder.get_sorted_subfolders, List.mem_insertionSort] using h0mem
    have h0eq : h0 = g := huniq h0 h0mem' h0name
    have hdisp : h0.get_display_name = "INBOX" := by
      rw [h0eq]
      simp [Folder.get_display_name, hunread, hname]
    rcases heq : a.email_store.root_folder.get_sorted_subfolders with _ | ⟨x, t⟩
    · rw [heq] at hhead
      exact absurd hhead (by simp)
    · have hx0 : x = h0 := by
        rw [heq] at hhead
        simp only [List.head?_cons, Option.some.injEq] at hhead
        exact hhead
      simp only [App.find_inbox_folder, heq, List.findIdx?_cons, hx0, hdisp,
        (by decide : eqIgnoreAsciiCase "INBOX" "inbox" = true), if_true]

/-! ## Accessor lemmas for folder updates -/

@[simp] theorem Folder.name_setSubfolders (f : Folder) (subs : List Folder) :
    (f.setSubfolders subs).name = f.name := by cases f; rfl

@[simp] theorem Folder.emails_setSubfolders (f : Folder) (subs : List Folder) :
    (f.setSubfolders subs).emails = f.emails := by cases f; rfl

@[simp] theorem Folder.subfolders_setSubfolders (f : Folder) (subs : List Folder) :
    (f.setSubfolders subs).subfolders = subs := by cases f; rfl

@[simp] theorem Folder.name_setEmails (f : Folder) (es : List Email) :
    (f.setEmails es).name = f.name := by cases f; rfl

@[simp] theorem Folder.emails_setEmails (f : Folder) (es : List Email) :
    (f.setEmails es).emails = es := by cases f; rfl

@[simp] theorem Folder.subfolders_setEmails (f : Folder) (es : List Email) :
    (f.setEmails es).subfolders = f.subfolders := by cases f; rfl

@[simp] theorem Folder.name_setIsLoaded (f : Folder) (l : Bool) :
    (f.setIsLoaded l).name = f.name := by cases f; rfl

@[simp] theorem Folder.emails_setIsLoaded (f : Folder) (l : Bool) :
    (f.setIsLoaded l).emails = f.emails := by cases f; rfl

@[simp] theorem Folder.subfolders_setIsLoaded (f : Folder) (l : Bool) :
    (f.setIsLoaded l).subfolders = f.subfolders := by cases f; rfl

@[simp] theorem Folder.is_loaded_setIsLoaded (f : Folder) (l : Bool) :
    (f.setIsLoaded l).is_loaded = l := by cases f; rfl

@[simp] theorem Folder.name_add_email (f : Folder) (e : Email) :
    (f.add_email e).name = f.name := by cases f; rfl

@[simp] theorem Folder.path_add_email (f : Folder) (e : Email) :
    (f.add_email e).path = f.path := by cases f; rfl

@[simp] theorem Folder.emails_add_email (f : Folder) (e : Email) :
    (f.add_email e).emails = f.emails ++ [e] := by cases f; rfl

@[simp] theorem Folder.subfolders_add_email (f : Folder) (e : Email) :
    (f.add_email e).subfolders = f.subfolders := by cases f; rfl

@[simp] theorem Folder.total_count_add_email (f : Folder) (e : Email) :
    (f.add_email e).total_count = f.total_count + 1 := by cases f; rfl

@[simp] theorem Folder.is_loaded_add_email (f : Folder) (e : Email) :
    (f.add_email e).is_loaded = f.is_loaded := by cases f; rfl

@[simp] theorem Folder.name_add_subfolder (f g : Folder) :
    (f.add_subfolder g).name = f.name := by cases f; rfl

@[simp] theorem Folder.emails_add_subfolder (f g : Folder) :
    (f.add_subfolder g).emails = f.emails := by cases f; rfl

@[simp] theorem Folder.subfolders_add_subfolder (f g : Folder) :
    (f.add_subfolder g).subfolders = f.subfolders ++ [g] := by cases f; rfl

@[simp] theorem Folder.emails_new (n : String) (p : List String) :
    (Folder.new n p).emails = [] := rfl

@[simp] theorem Folder.subfolders_new (n : String) (p : List String) :
    (Folder.new n p).subfolders = [] := rfl

@[simp] theorem Folder.name_new (n : String) (p : List String) :
    (Folder.new n p).name = n := rfl

/-! ## Folding `add_email` over a list of emails -/

theorem foldl_add_email_emails (l : List Email) :
    ∀ f : Folder, (l.foldl Folder.add_email f).emails = f.emails ++ l := by
  induction l with
  | nil => intro f; simp
  | cons e rest ih => intro f; simp [ih]

theorem foldl_add_email_total_count (l : List Email) :
    ∀ f : Folder, (l.foldl Folder.add_email f).total_count = f.total_count + l.length := by
  induction l with
  | nil => intro f; simp
  | cons e rest ih => intro f; simp [ih]; omega

theorem foldl_add_email_name (l : List Email) :
    ∀ f : Folder, (l.foldl Folder.add_email f).name = f.name := by
  induction l with
  | nil => intro f; rfl
  | cons e rest ih => intro f; simp [ih]

theorem foldl_add_email_subfolders (l : List Email) :
    ∀ f : Folder, (l.foldl Folder.add_email f).subfolders = f.subfolders := by
  induction l with
  | nil => intro f; rfl
  | cons e rest ih => intro f; simp [ih]

theorem foldl_add_email_is_loaded (l : List Email) :
    ∀ f : Folder, (l.foldl Folder.add_email f).is_loaded = f.is_loaded := by
  induction l with
  | nil => intro f; rfl
  | cons e rest ih => intro f; simp [ih]

/-- The walk of one directory in `scan_emails_in_folder` is a fold of
`add_email` over the filtered, built message files. -/
theorem scan_entries_foldl_eq (fs : FSNode) (dir_path : List String) :
    ∀ (entries : List (String × FSNode)) (folder : Folder),
      entries.foldl
        (fun acc e =>
          match e.snd with
          | FSNode.file _ =>
            if MaildirScanner.is_email_file e.fst then
              acc.add_email (MaildirScanner.email_from_entry fs dir_path e.fst)
            else acc
          | FSNode.dir _ => acc)
        folder =
      ((entries.filter (fun e =>
          (match e.snd with | FSNode.file _ => true | FSNode.dir _ => false)
            && MaildirScanner.is_email_file e.fst)).map
        (fun e => MaildirScanner.email_from_entry fs dir_path e.fst)).foldl
        Folder.add_email folder := by
  intro entries
  induction entries with
  | nil => intro folder; rfl
  | cons e rest ih =>
    intro folder
    obtain ⟨nm, node⟩ := e
    cases node with
    | file r =>
      by_cases hf : MaildirScanner.is_email_file nm <;> simp [List.filter_cons, hf, ih]
    | dir sub => simp [List.filter_cons, ih]

/-- `scan_emails_in_folder` is exactly a fold of `add_email` over the
filtered, built message files of the directory. -/
theorem scan_emails_in_folder_eq (fs : FSNode) (dir_path : List String)
    (folder : Folder) :
    MaildirScanner.scan_emails_in_folder fs folder dir_path =
      (MaildirScanner.emails_in_dir fs dir_path).foldl Folder.add_email folder := by
  unfold MaildirScanner.scan_emails_in_folder MaildirScanner.emails_in_dir
  cases h : fs.lookup dir_path with
  | none => rfl
  | some node =>
    cases node with
    | file r => rfl
    | dir entries => exact scan_entries_foldl_eq fs dir_path entries folder

/-- A successful parse keeps the unread flag. -/
theorem Email.parse_from_file_is_unread {fs : FSNode} {e r : Email}
    (h : Email.parse_from_file fs e = Except.ok r) : r.is_unread = e.is_unread := by
  rcases h' : readParseAt fs e.file_path with s | m
  · simp [Email.parse_from_file, h'] at h
  · rcases m with _ | m
    · simp [Email.parse_from_file, h'] at h
    · simp [Email.parse_from_file, h'] at h
      subst h; rfl

/-- The unread flag of a built message file is decided by the physical
subdirectory it came from. -/
theorem email_from_entry_is_unread (fs : FSNode) (dir_path : List String) (nm : String) :
    (MaildirScanner.email_from_entry fs dir_path nm).is_unread
      = (dir_path.getLast? == some "new") := by
  unfold MaildirScanner.email_from_entry
  rcases h : Email.parse_from_file fs
      { Email.new (dir_path ++ [nm]) with is_unread := dir_path.getLast? == some "new" }
    with s | r
  · simp [h]
  · simp [h, Email.parse_from_file_is_unread h]

/-! ## C2: full load after a capped load (corrected) -/

/-- Counterexample to C2 as stated: on a maildir folder with 25 on-disk
messages, a capped load with limit 10 materializes 10 messages and leaves
`loaded = false`; the subsequent full load does not clear the list — it
re-scans and appends, leaving 35 entries (the first 10 duplicated) instead of
the 25 the claim requires. -/
theorem reload_duplicates_counterexample :
    (MaildirScanner.load_folder_emails_with_limit reloadFS reloadFolder (some 10)).emails.length
        = 10 ∧
      (MaildirScanner.load_folder_emails_with_limit reloadFS reloadFolder
        (some 10)).is_loaded = false ∧
      (MaildirScanner.load_folder_emails reloadFS
        (MaildirScanner.load_folder_emails_with_limit reloadFS reloadFolder
          (some 10))).emails.length = 35 := by
  exact ⟨rfl, rfl, rfl⟩

/-- C2 (amended).  On a not-yet-loaded maildir folder, a full load via
`MaildirScanner::load_folder_emails` scans the seen (`cur`) subdirectory then
the unseen (`new`) subdirectory, tags each message `is_unread` according to
which subdirectory it came from, marks the folder `loaded = true`, and
*appends* the scanned messages to any previously materialized list (it does
not clear it) — so a full load after a capped load that materialized 10 of 25
messages leaves 35 entries, not 25. -/
theorem load_folder_emails_appends :
    ∀ (fs : FSNode) (folder : Folder),
      folder.is_loaded = false →
      (fs.lookup (folder.path ++ ["cur"])).isSome = true →
      (fs.lookup (folder.path ++ ["new"])).isSome = true →
      (fs.lookup (folder.path ++ ["tmp"])).isSome = true →
      ((MaildirScanner.load_folder_emails fs folder).emails =
        folder.emails ++ MaildirScanner.emails_in_dir fs (folder.path ++ ["cur"])
          ++ MaildirScanner.emails_in_dir fs (folder.path ++ ["new"])) ∧
      (MaildirScanner.load_folder_emails fs folder).is_loaded = true ∧
      (∀ em ∈ MaildirScanner.emails_in_dir fs (folder.path ++ ["cur"]),
        em.is_unread = false) ∧
      (∀ em ∈ MaildirScanner.emails_in_dir fs (folder.path ++ ["new"]),
        em.is_unread = true) := by
  intro fs folder hl hc hn ht
  have hload : MaildirScanner.load_folder_emails fs folder =
      (((MaildirScanner.emails_in_dir fs (folder.path ++ ["cur"]))
          ++ MaildirScanner.emails_in_dir fs (folder.path ++ ["new"])).foldl
        Folder.add_email folder).setIsLoaded true := by
    unfold MaildirScanner.load_folder_emails
    simp only [hl, hc, hn, ht, Bool.false_eq_true, if_false, Bool.and_self, if_true,
      scan_emails_in_folder_eq, List.foldl_append]
  refine ⟨?_, ?_, ?_, ?_⟩
  · rw [hload]
    simp [foldl_add_email_emails]
  · rw [hload]; simp
  · intro em hm
    unfold MaildirScanner.emails_in_dir at hm
    rcases hlk : FSNode.lookup fs (folder.path ++ ["cur"]) with _ | node
    · rw [hlk] at hm; cases hm
    · cases node with
      | file r => rw [hlk] at hm; cases hm
      | dir entries =>
        rw [hlk] at hm
        obtain ⟨e, hme, hem⟩ := List.mem_map.mp hm
        rw [← hem, email_from_entry_is_unread]
        simp [List.getLast?_concat]
  · intro em hm
    unfold MaildirScanner.emails_in_dir at hm
    rcases hlk : FSNode.lookup fs (folder.path ++ ["new"]) with _ | node
    · rw [hlk] at hm; cases hm
    · cases node with
      | file r => rw [hlk] at hm; cases hm
      | dir entries =>
        rw [hlk] at hm
        obtain ⟨e, hme, hem⟩ := List.mem_map.mp hm
        rw [← hem, email_from_entry_is_unread]
        simp [List.getLast?_concat]

/-- Witness for C2 (amended) on the 25-message fixture after its capped load:
the full load appends and marks the folder loaded. -/
theorem load_folder_emails_appends_witness :
    ((MaildirScanner.load_folder_emails reloadFS
        (MaildirScanner.load_folder_emails_with_limit reloadFS reloadFolder
          (some 10))).emails =
      (MaildirScanner.load_folder_emails_with_limit reloadFS reloadFolder
          (some 10)).emails
        ++ MaildirScanner.emails_in_dir reloadFS
            ((MaildirScanner.load_folder_emails_with_limit reloadFS reloadFolder
              (some 10)).path ++ ["cur"])
        ++ MaildirScanner.emails_in_dir reloadFS
            ((MaildirScanner.load_folder_emails_with_limit reloadFS reloadFolder
              (some 10)).path ++ ["new"])) ∧
    (MaildirScanner.load_folder_emails reloadFS
      (MaildirScanner.load_folder_emails_with_limit reloadFS reloadFolder
        (some 10))).is_loaded = true :=
  ⟨(load_folder_emails_appends reloadFS
      (MaildirScanner.load_folder_emails_with_limit reloadFS reloadFolder (some 10))
      rfl rfl rfl rfl).1,
    (load_folder_emails_appends reloadFS
      (MaildirScanner.load_folder_emails_with_limit reloadFS reloadFolder (some 10))
      rfl rfl rfl rfl).2.1⟩

/-! ## C9: a parse failure is not fatal to the folder load -/

/-- C9 (confirmed).  During a folder load every regular file passing the
message-file filter is added — the parse-failing ones included, with a
non-empty synthetic subject naming the parse error — and the folder totals
count them all, so one corrupt file hides nothing. -/
theorem parse_failure_not_fatal :
    ∀ (fs : FSNode) (folder : Folder) (dir_path : List String)
      (entries : List (String × FSNode)),
      fs.lookup dir_path = some (FSNode.dir entries) →
      ((MaildirScanner.scan_emails_in_folder fs folder dir_path).emails =
        folder.emails ++ MaildirScanner.emails_in_dir fs dir_path) ∧
      ((MaildirScanner.scan_emails_in_folder fs folder dir_path).total_count =
        folder.total_count + (MaildirScanner.emails_in_dir fs dir_path).length) ∧
      (∀ nm r, (nm, FSNode.file r) ∈ entries → MaildirScanner.is_email_file nm = true →
        ∀ err, Email.parse_from_file fs
            { Email.new (dir_path ++ [nm]) with is_unread := dir_path.getLast? == some "new" }
            = Except.error err →
          ∃ em ∈ (MaildirScanner.scan_emails_in_folder fs folder dir_path).emails,
            em.file_path = dir_path ++ [nm] ∧
            em.headers.subject = "Parse Error: " ++ err ∧
            em.headers.subject ≠ "") := by
  intro fs folder dir_path entries hlk
  refine ⟨by rw [scan_emails_in_folder_eq, foldl_add_email_emails],
    by rw [scan_emails_in_folder_eq, foldl_add_email_total_count], ?_⟩
  intro nm r hmem hfile err herr
  refine ⟨MaildirScanner.email_from_entry fs dir_path nm, ?_, ?_, ?_, ?_⟩
  · rw [scan_emails_in_folder_eq, foldl_add_email_emails]
    refine List.mem_append_right _ ?_
    unfold MaildirScanner.emails_in_dir
    rw [hlk]
    refine List.mem_map.mpr ⟨(nm, FSNode.file r), ?_, rfl⟩
    refine List.mem_filter.mpr ⟨hmem, by simp [hfile]⟩
  · simp only [MaildirScanner.email_from_entry, herr]
    try rfl
  · simp only [MaildirScanner.email_from_entry, herr]
    try rfl
  · simp only [MaildirScanner.email_from_entry, herr]
    intro h
    have hlen := congrArg String.length h
    simp [String.length_append,
      (show ("Parse Error: " : String).length = 13 from rfl)] at hlen

/-- Witness for C9 on the corrupt-plus-good fixture directory: both files are
counted and the corrupt one carries the synthetic subject. -/
theorem parse_failure_not_fatal_witness :
    ((MaildirScanner.scan_emails_in_folder failFS failFolder ["cur"]).total_count =
        failFolder.total_count + (MaildirScanner.emails_in_dir failFS ["cur"]).length) ∧
      ∃ em ∈ (MaildirScanner.scan_emails_in_folder failFS failFolder ["cur"]).emails,
        em.file_path = ["cur", "bad"] ∧
        em.headers.subject = "Parse Error: " ++ "Failed to parse email" ∧
        em.headers.subject ≠ "" :=
  ⟨(parse_failure_not_fatal failFS failFolder ["cur"] failEntries rfl).2.1,
    (parse_failure_not_fatal failFS failFolder ["cur"] failEntries rfl).2.2
      "bad" (Except.ok none) (List.mem_cons_self _ _) rfl
      "Failed to parse email" rfl⟩

/-- Witness for C6 (amended): on the fixture app with a unique `INBOX` child
holding no unread messages, `find_inbox_folder` lands on sorted index 0. -/
theorem folder_ordering_inbox_first_witness :
    inboxApp.find_inbox_folder = some 0 :=
  folder_ordering_inbox_first.2.2 inboxApp (Folder.mk "INBOX" ["INBOX"] [] [] 0 0 false)
    (show Folder.mk "INBOX" ["INBOX"] [] [] 0 0 false ∈
        [Folder.mk "Zebra" ["Zebra"] [] [] 0 0 false,
          Folder.mk "INBOX" ["INBOX"] [] [] 0 0 false]
      from List.mem_cons_of_mem _ (List.mem_cons_self _ _))
    rfl rfl
    (by
      intro g' hg' hname
      have hg2 : g' = Folder.mk "Zebra" ["Zebra"] [] [] 0 0 false ∨
          g' = Folder.mk "INBOX" ["INBOX"] [] [] 0 0 false := by
        have hg3 : g' ∈ [Folder.mk "Zebra" ["Zebra"] [] [] 0 0 false,
            Folder.mk "INBOX" ["INBOX"] [] [] 0 0 false] := hg'
        simpa using hg3
      rcases hg2 with rfl | rfl
      · exact absurd hname (by decide)
      · rfl)

/-! ## C3: scan builds structure only, except the eager INBOX load (corrected) -/

/-- Induction principle for the nested inductive `FSNode`. -/
theorem FSNode.fs_ind {motive : FSNode → Prop}
    (hfile : ∀ r, motive (FSNode.file r))
    (hdir : ∀ entries, (∀ nm node, (nm, node) ∈ entries → motive node) →
      motive (FSNode.dir entries)) :
    ∀ node, motive node
  | FSNode.file r => hfile r
  | FSNode.dir entries =>
    hdir entries (fun _ node h =>
      FSNode.fs_ind hfile hdir node)
termination_by node => sizeOf node
decreasing_by
  have h1 := List.sizeOf_lt_of_mem h
  simp only [Prod.mk.sizeOf_spec] at h1
  simp only [FSNode.dir.sizeOf_spec]
  omega

/-- Unfolding characterization of recursive message-list emptiness. -/
theorem allEmailsEmptyB_iff (f : Folder) :
    f.allEmailsEmptyB = true ↔
      (f.emails = [] ∧ ∀ g ∈ f.subfolders, g.allEmailsEmptyB = true) := by
  cases f with
  | mk n p es subs u t l =>
    rw [Folder.allEmailsEmptyB]
    simp [Folder.emails, Folder.subfolders, List.isEmpty_iff, List.all_eq_true]

/-- A freshly created folder is recursively empty. -/
theorem Folder.new_allEmailsEmptyB (n : String) (p : List String) :
    (Folder.new n p).allEmailsEmptyB = true := by
  rw [allEmailsEmptyB_iff]
  simp

/-- Adding a recursively empty subfolder preserves recursive emptiness. -/
theorem add_subfolder_allEmailsEmptyB {f g : Folder} (hf : f.allEmailsEmptyB = true)
    (hg : g.allEmailsEmptyB = true) : (f.add_subfolder g).allEmailsEmptyB = true := by
  rw [allEmailsEmptyB_iff] at hf ⊢
  cases f with
  | mk n p es subs u t l =>
    simp only [Folder.emails_add_subfolder, Folder.subfolders_add_subfolder]
    refine ⟨hf.1, ?_⟩
    intro g' hg'
    rcases List.mem_append.mp hg' with h | h
    · exact hf.2 g' h
    · rw [List.mem_singleton.mp h]; exact hg

/-- The entry loop of the structure-only scan keeps every message list
empty. -/
theorem scanStructureEntries_allEmailsEmptyB (path : List String)
    (entries : List (String × FSNode))
    (hrec : ∀ nm node, (nm, node) ∈ entries → ∀ (p : List String) (f : Folder),
      f.allEmailsEmptyB = true →
      (MaildirScanner.scan_folder_structure_only p f node).allEmailsEmptyB = true) :
    ∀ folder : Folder, folder.allEmailsEmptyB = true →
      (MaildirScanner.scanStructureEntries path folder entries).allEmailsEmptyB = true := by
  induction entries with
  | nil =>
    intro folder h
    simpa [MaildirScanner.scanStructureEntries] using h
  | cons e rest ih =>
    intro folder h
    obtain ⟨nm, node⟩ := e
    have hrec' := fun nm' node' hmem => hrec nm' node' (List.mem_cons_of_mem (nm, node) hmem)
    cases node with
    | file r =>
      simp only [MaildirScanner.scanStructureEntries]
      exact ih hrec' folder h
    | dir sub =>
      simp only [MaildirScanner.scanStructureEntries]
      split_ifs with h1 h2
      · exact ih hrec' folder h
      · exact ih hrec' folder h
      · exact ih hrec' _
          (add_subfolder_allEmailsEmptyB h
            (hrec nm (FSNode.dir sub) (List.mem_cons_self _ _) _ _
              (Folder.new_allEmailsEmptyB _ _)))

/-- The structure-only scan keeps every message list empty: no email is
parsed or added anywhere in the tree it builds. -/
theorem scan_folder_structure_only_allEmailsEmptyB :
    ∀ (node : FSNode) (path : List String) (folder : Folder),
      folder.allEmailsEmptyB = true →
      (MaildirScanner.scan_folder_structure_only path folder node).allEmailsEmptyB = true := by
  intro node
  induction node using FSNode.fs_ind with
  | hfile r =>
    intro path folder h
    rw [MaildirScanner.scan_folder_structure_only]
    exact h
  | hdir entries ih =>
    intro path folder h
    rw [MaildirScanner.scan_folder_structure_only]
    exact scanStructureEntries_allEmailsEmptyB path entries ih folder h

/-- A full folder load does not touch the folder's name. -/
theorem load_folder_emails_name (fs : FSNode) (g : Folder) :
    (MaildirScanner.load_folder_emails fs g).name = g.name := by
  unfold MaildirScanner.load_folder_emails
  split_ifs with h1
  · rfl
  · simp only [scan_emails_in_folder_eq]
    split <;> simp [foldl_add_email_name]

/-- A full folder load does not touch the folder's subfolders. -/
theorem load_folder_emails_subfolders (fs : FSNode) (g : Folder) :
    (MaildirScanner.load_folder_emails fs g).subfolders = g.subfolders := by
  unfold MaildirScanner.load_folder_emails
  split_ifs with h1
  · rfl
  · simp only [scan_emails_in_folder_eq]
    split <;> simp [foldl_add_email_subfolders]

/-- Counterexample to C3 as stated: `scan()` does not leave every folder's
message list empty — on a root containing an `INBOX` maildir folder with one
message, the `INBOX` subfolder comes back from `scan()` with that message
already parsed and materialized (the source loads `INBOX` eagerly right after
the structure walk, and its own test asserts exactly this). -/
theorem scan_loads_inbox_counterexample :
    ∃ f, scanScanner.scan scanFS = Except.ok f ∧
      ∃ g ∈ f.subfolders, g.name = "INBOX" ∧ g.emails.length = 1 := by
  have h1 : MaildirScanner.scan_folder_structure_only [] (Folder.new "Mail" []) scanFS
      = Folder.mk "Mail" [] [] [Folder.mk "INBOX" ["INBOX"] [] [] 0 0 false] 0 0 false := by
    simp [scanFS, MaildirScanner.scan_folder_structure_only,
      MaildirScanner.scanStructureEntries, strStartsWith, Folder.new, Folder.add_subfolder]
  have h2 : scanScanner.scan scanFS =
      (fun root0 =>
        match root0.subfolders.findIdx? (fun f => f.name == "INBOX") with
        | some inbox_index =>
          Except.ok (root0.setSubfolders (root0.subfolders.set inbox_index
            (MaildirScanner.load_folder_emails scanFS
              (root0.subfolders.getD inbox_index (Folder.new "Mail" [])))))
        | none => Except.ok root0)
      (MaildirScanner.scan_folder_structure_only [] (Folder.new "Mail" []) scanFS) := rfl
  have h3 : scanScanner.scan scanFS =
      Except.ok (Folder.mk "Mail" [] [] [scannedInbox] 0 0 false) := by
    rw [h2, h1]
    rfl
  refine ⟨_, h3, ?_⟩
  exact ⟨scannedInbox, List.mem_cons_self _ _, rfl, rfl⟩

/-- C3 (amended).  `MaildirScanner::scan` errors when the root path is missing
or not a directory; otherwise it builds the folder hierarchy recursively with
every message list empty — except that a top-level subfolder literally named
`INBOX` is eagerly fully loaded before `scan` returns.  Concretely: the root
has no messages, every top-level folder not named `INBOX` is recursively
message-free, and so is every deeper descendant. -/
theorem scan_structure_only_except_inbox :
    ∀ (s : MaildirScanner) (fs : FSNode),
      (fs.lookup s.root_path = none →
        s.scan fs = Except.error
          ("MailDir path does not exist: " ++ String.intercalate "/" s.root_path)) ∧
      (∀ r, fs.lookup s.root_path = some (FSNode.file r) →
        s.scan fs = Except.error
          ("MailDir path is not a directory: " ++ String.intercalate "/" s.root_path)) ∧
      (∀ f, s.scan fs = Except.ok f →
        f.emails = [] ∧
        (∀ g ∈ f.subfolders, g.name ≠ "INBOX" → g.allEmailsEmptyB = true) ∧
        (∀ g ∈ f.subfolders, ∀ g' ∈ g.subfolders, g'.allEmailsEmptyB = true)) := by
  intro s fs
  refine ⟨?_, ?_, ?_⟩
  · intro h
    simp only [MaildirScanner.scan, h]
  · intro r h
    simp only [MaildirScanner.scan, h]
  · intro f h
    rcases hlk : fs.lookup s.root_path with _ | node
    · simp only [MaildirScanner.scan, hlk] at h
      exact Except.noConfusion h
    · cases node with
      | file r =>
        simp only [MaildirScanner.scan, hlk] at h
        exact Except.noConfusion h
      | dir entries =>
        have hroot : (MaildirScanner.scan_folder_structure_only s.root_path
            (Folder.new "Mail" s.root_path) (FSNode.dir entries)).allEmailsEmptyB = true :=
          scan_folder_structure_only_allEmailsEmptyB (FSNode.dir entries) s.root_path
            (Folder.new "Mail" s.root_path) (Folder.new_allEmailsEmptyB _ _)
        set root0 := MaildirScanner.scan_folder_structure_only s.root_path
          (Folder.new "Mail" s.root_path) (FSNode.dir entries) with hroot0
        have hprops := (allEmailsEmptyB_iff root0).mp hroot
        simp only [MaildirScanner.scan, hlk] at h
        rcases hidx : root0.subfolders.findIdx? (fun f0 => f0.name == "INBOX") with _ | idx
        · rw [← hroot0, hidx] at h
          obtain rfl : root0 = f := by
            injection h
          refine ⟨hprops.1, fun g hg _ => hprops.2 g hg, fun g hg g' hg' =>
            ((allEmailsEmptyB_iff g).mp (hprops.2 g hg)).2 g' hg'⟩
        · rw [← hroot0, hidx] at h
          have hfi := List.findIdx?_eq_some_iff_findIdx_eq.mp hidx
          have hlen : idx < root0.subfolders.length := hfi.1
          have hpidx : ((root0.subfolders.getD idx (Folder.new "Mail" s.root_path)).name
              == "INBOX") = true := by
            rw [List.getD_eq_getElem root0.subfolders _ hlen]
            have hw : root0.subfolders.findIdx (fun f0 => f0.name == "INBOX")
                < root0.subfolders.length := by rw [hfi.2]; exact hlen
            have := @List.findIdx_getElem _ (fun f0 => f0.name == "INBOX")
              root0.subfolders hw
            simpa [hfi.2] using this
          obtain rfl : root0.setSubfolders (root0.subfolders.set idx
              (MaildirScanner.load_folder_emails fs
                (root0.subfolders.getD idx (Folder.new "Mail" s.root_path)))) = f := by
            injection h
          refine ⟨by simpa using hprops.1, ?_, ?_⟩
          · intro g hg hgname
            rw [Folder.subfolders_setSubfolders] at hg
            rcases List.mem_or_eq_of_mem_set hg with hmem | rfl
            · exact hprops.2 g hmem
            · exfalso
              apply hgname
              rw [load_folder_emails_name]
              exact eq_of_beq hpidx
          · intro g hg g' hg'
            rw [Folder.subfolders_setSubfolders] at hg
            rcases List.mem_or_eq_of_mem_set hg with hmem | rfl
            · exact ((allEmailsEmptyB_iff g).mp (hprops.2 g hmem)).2 g' hg'
            · rw [load_folder_emails_subfolders] at hg'
              have hbase : (root0.subfolders.getD idx
                  (Folder.new "Mail" s.root_path)).allEmailsEmptyB = true := by
                rw [List.getD_eq_getElem root0.subfolders _ hlen]
                exact hprops.2 _ (List.getElem_mem hlen)
              exact ((allEmailsEmptyB_iff _).mp hbase).2 g' hg'

/-- Witness for C3 (amended) at a missing root path. -/
theorem scan_structure_only_except_inbox_witness :
    MaildirScanner.scan { root_path := ["nope"] } emptyFS =
      Except.error ("MailDir path does not exist: " ++ String.intercalate "/" ["nope"]) :=
  (scan_structure_only_except_inbox { root_path := ["nope"] } emptyFS).1 rfl

/-! ## C7: flat display index to folder path resolution -/

/-- Induction principle for the nested inductive `Folder`. -/
theorem Folder.tree_ind {motive : Folder → Prop}
    (h : ∀ n p es subs u t l, (∀ g ∈ subs, motive g) →
      motive (Folder.mk n p es subs u t l)) :
    ∀ f, motive f
  | Folder.mk n p es subs u t l =>
    h n p es subs u t l (fun g hg => Folder.tree_ind h g)
termination_by f => sizeOf f
decreasing_by
  have h1 := List.sizeOf_lt_of_mem hg
  simp only [Folder.mk.sizeOf_spec]
  omega

/-- Soundness of the enumerated child search: a hit at result index
`start + j` comes from a hit on the `j`-th child. -/
theorem findPathInChildren_sound :
    ∀ (subs : List Folder) (target : Folder) (start : Nat) (q : List Nat),
      findPathInChildren target subs start = some q →
      ∃ (j : Nat) (hj : j < subs.length) (q' : List Nat), q = (start + j) :: q' ∧
        find_folder_path (subs.get ⟨j, hj⟩) target = some q' := by
  intro subs
  induction subs with
  | nil =>
    intro t s q h
    rw [findPathInChildren] at h
    exact Option.noConfusion h
  | cons g rest ih =>
    intro t s q h
    rw [findPathInChildren] at h
    rcases hf : find_folder_path g t with _ | p
    · simp only [hf] at h
      obtain ⟨j, hj, q', rfl, hfind⟩ := ih t (s + 1) q h
      refine ⟨j + 1, by simpa using Nat.succ_lt_succ hj, q', ?_, ?_⟩
      · congr 1
        omega
      · exact hfind
    · simp only [hf, Option.some.injEq] at h
      refine ⟨0, by simp, p, ?_, hf⟩
      rw [← h]
      simp

/-- A path returned by `find_folder_path` resolves, through the strict
descent of `get_folder_at_path`, to the target folder. -/
theorem find_folder_path_sound :
    ∀ (current target : Folder) (p : List Nat),
      find_folder_path current target = some p → current.getAtPath p = some target := by
  intro current
  induction current using Folder.tree_ind with
  | h n pth es subs u t l ih =>
    intro target p hfp
    rw [find_folder_path] at hfp
    split_ifs at hfp with heq
    · injection hfp with h'
      rw [← h']
      rw [show Folder.getAtPath (Folder.mk n pth es subs u t l) [] =
        some (Folder.mk n pth es subs u t l) from rfl]
      rw [heq]
    · obtain ⟨j, hj, q', hq, hfind⟩ :=
        findPathInChildren_sound (Folder.mk n pth es subs u t l).subfolders target 0 p hfp
      rw [Nat.zero_add] at hq
      subst hq
      show (if h2 : j < (Folder.mk n pth es subs u t l).subfolders.length then
        Folder.getAtPath ((Folder.mk n pth es subs u t l).subfolders.get ⟨j, h2⟩) q'
        else none) = some target
      rw [dif_pos hj]
      exact ih _ (List.get_mem _ _ hj) target q' hfind

/-- When some child search succeeds, the enumerated search succeeds. -/
theorem findPathInChildren_isSome :
    ∀ (subs : List Folder) (target : Folder) (start : Nat),
      (∃ g ∈ subs, (find_folder_path g target).isSome) →
      (findPathInChildren target subs start).isSome := by
  intro subs
  induction subs with
  | nil =>
    intro t s h
    obtain ⟨g, hg, _⟩ := h
    cases hg
  | cons g rest ih =>
    intro t s h
    rw [findPathInChildren]
    rcases hf : find_folder_path g t with _ | p
    · obtain ⟨g', hg', hsome⟩ := h
      rcases List.mem_cons.mp hg' with rfl | hmem
      · rw [hf] at hsome; cases hsome
      · exact ih t (s + 1) ⟨g', hmem, hsome⟩
    · rfl

/-- Every folder listed by the flattening is found by the search. -/
theorem find_isSome_of_mem_flatten :
    ∀ (current target : Folder) (d : Nat),
      target ∈ (build_flat_folder_list current d).map Prod.fst →
      (find_folder_path current target).isSome := by
  intro current
  induction current using Folder.tree_ind with
  | h n pth es subs u t l ih =>
    intro target d hmem
    rw [build_flat_folder_list] at hmem
    rw [List.map_append, List.mem_append] at hmem
    rcases hmem with hbase | hrec
    · have : target = Folder.mk n pth es subs u t l := by
        rcases hd : d with _ | d'
        · rw [hd] at hbase; simp at hbase
        · rw [hd] at hbase; simpa using hbase
      rw [find_folder_path, if_pos this.symm]
      rfl
    · rw [List.map_flatMap] at hrec
      obtain ⟨sub, hsub, hin⟩ := List.mem_flatMap.mp hrec
      have hsubmem : sub.1 ∈ subs := by
        have h2 := sub.2
        simpa [Folder.get_sorted_subfolders, Folder.subfolders,
          List.mem_insertionSort] using h2
      have hsome := ih sub.1 hsubmem target (d + 1) hin
      rw [find_folder_path]
      split_ifs with heq
      · rfl
      · exact findPathInChildren_isSome _ target 0 ⟨sub.1, by simpa [Folder.subfolders], hsome⟩

/-- C7 (confirmed).  The flattened sorted folder listing is deterministic, and
for every valid flat display index the resolver returns a path of child
indices that resolves to exactly the folder occupying that position in the
same flattening; an out-of-range index resolves to `none`. -/
theorem flat_index_path_round_trip :
    ∀ (root : Folder) (display_index : Nat),
      (∀ h : display_index < (build_flat_folder_list root 0).length,
        ∃ p, get_folder_path_from_display_index root display_index = some p ∧
          root.getAtPath p =
            some ((build_flat_folder_list root 0).get ⟨display_index, h⟩).fst) ∧
      ((build_flat_folder_list root 0).length ≤ display_index →
        get_folder_path_from_display_index root display_index = none) ∧
      build_flat_folder_list root 0 = build_flat_folder_list root 0 := by
  intro root display_index
  refine ⟨?_, ?_, rfl⟩
  · intro h
    have hmem : ((build_flat_folder_list root 0).get ⟨display_index, h⟩).fst
        ∈ (build_flat_folder_list root 0).map Prod.fst :=
      List.mem_map_of_mem _ (List.get_mem _ _ h)
    have hsome := find_isSome_of_mem_flatten root _ 0 hmem
    obtain ⟨p, hp⟩ := Option.isSome_iff_exists.mp hsome
    refine ⟨p, ?_, find_folder_path_sound root _ p hp⟩
    simp only [get_folder_path_from_display_index, List.get?_eq_get h]
    exact hp
  · intro hge
    simp only [get_folder_path_from_display_index, List.get?_eq_none.mpr hge]

/-- Witness for C7 on a one-child root: index 0 resolves to a path that leads
back to the child at flat position 0, and index 1 is out of range. -/
theorem flat_index_path_round_trip_witness :
    (0 < (build_flat_folder_list flatRoot 0).length ∧
      ∃ p, get_folder_path_from_display_index flatRoot 0 = some p ∧
        ∃ h : 0 < (build_flat_folder_list flatRoot 0).length,
          flatRoot.getAtPath p =
            some ((build_flat_folder_list flatRoot 0).get ⟨0, h⟩).fst) ∧
      get_folder_path_from_display_index flatRoot 1 = none := by
  have hchild : build_flat_folder_list flatChild 1 = [(flatChild, 1)] := by
    rw [build_flat_folder_list_eq]
    rw [show flatChild.get_sorted_subfolders = [] from rfl]
    rfl
  have hflat : build_flat_folder_list flatRoot 0 = [(flatChild, 1)] := by
    rw [build_flat_folder_list_eq]
    rw [show flatRoot.get_sorted_subfolders = [flatChild] from rfl]
    simp [hchild]
  have hlen : 0 < (build_flat_folder_list flatRoot 0).length := by rw [hflat]; decide
  refine ⟨⟨hlen, ?_⟩, ?_⟩
  · obtain ⟨p, h1, h2⟩ := (flat_index_path_round_trip flatRoot 0).1 hlen
    exact ⟨p, h1, hlen, h2⟩
  · exact (flat_index_path_round_trip flatRoot 1).2.1 (by rw [hflat]; decide)

/-! ## C1: the selection-memory round trip -/

/-- A subfolder-preserving in-place modification does not change subfolder
counts anywhere along a clamped path. -/
theorem modifyClamped_subfolders_length {g : Folder → Folder}
    (hg : ∀ fo, (g fo).subfolders = fo.subfolders) :
    ∀ (p : List Nat) (f : Folder),
      (f.modifyClamped p g).subfolders.length = f.subfolders.length := by
  intro p
  induction p with
  | nil => intro f; rw [Folder.modifyClamped, hg]
  | cons i rest ih =>
    intro f
    rw [Folder.modifyClamped]
    split_ifs with h
    · simp
    · exact ih f

/-- Clamped navigation after a subfolder-preserving clamped modification along
the same path reaches the modified folder. -/
theorem navClamped_modifyClamped {g : Folder → Folder}
    (hg : ∀ fo, (g fo).subfolders = fo.subfolders) :
    ∀ (p : List Nat) (f : Folder),
      (f.modifyClamped p g).navClamped p = g (f.navClamped p) := by
  intro p
  induction p with
  | nil => intro f; rfl
  | cons i rest ih =>
    intro f
    by_cases h : i < f.subfolders.length
    · have hm : Folder.modifyClamped f (i :: rest) g =
          f.setSubfolders (f.subfolders.set i
            ((f.subfolders.get ⟨i, h⟩).modifyClamped rest g)) := by
        rw [Folder.modifyClamped, dif_pos h]
      have hn : Folder.navClamped f (i :: rest) = (f.subfolders.get ⟨i, h⟩).navClamped rest := by
        rw [Folder.navClamped, dif_pos h]
      rw [hm, hn]
      have hlen : i < (f.setSubfolders (f.subfolders.set i
          ((f.subfolders.get ⟨i, h⟩).modifyClamped rest g))).subfolders.length := by
        simpa using h
      rw [show (f.setSubfolders (f.subfolders.set i
            ((f.subfolders.get ⟨i, h⟩).modifyClamped rest g))).navClamped (i :: rest)
          = ((f.setSubfolders (f.subfolders.set i
            ((f.subfolders.get ⟨i, h⟩).modifyClamped rest g))).subfolders.get
              ⟨i, hlen⟩).navClamped rest from by
        rw [Folder.navClamped, dif_pos hlen]]
      have hget : (f.setSubfolders (f.subfolders.set i
          ((f.subfolders.get ⟨i, h⟩).modifyClamped rest g))).subfolders.get ⟨i, hlen⟩
          = (f.subfolders.get ⟨i, h⟩).modifyClamped rest g := by
        simp [List.get_set_eq]
      rw [hget]
      exact ih _
    · have hm : Folder.modifyClamped f (i :: rest) g = f.modifyClamped rest g := by
        rw [Folder.modifyClamped, dif_neg h]
      have hn : Folder.navClamped f (i :: rest) = f.navClamped rest := by
        rw [Folder.navClamped, dif_neg h]
      rw [hm, hn]
      have hlen : ¬ i < (f.modifyClamped rest g).subfolders.length := by
        rw [modifyClamped_subfolders_length hg]
        exact h
      rw [show (f.modifyClamped rest g).navClamped (i :: rest)
          = (f.modifyClamped rest g).navClamped rest from by
        rw [Folder.navClamped, dif_neg hlen]]
      exact ih f

/-- `get_selected_email` never changes the selection, the current-folder path,
or the number of messages in the current folder. -/
theorem get_selected_email_fst_facts (fs : FSNode) (s : EmailStore) :
    (s.get_selected_email fs).fst.selected_email = s.selected_email ∧
    (s.get_selected_email fs).fst.current_folder = s.current_folder ∧
    (s.get_selected_email fs).fst.get_current_folder.emails.length =
      s.get_current_folder.emails.length := by
  unfold EmailStore.get_selected_email
  rcases hsel : s.selected_email with _ | index
  · exact ⟨hsel, rfl, rfl⟩
  · dsimp only
    rcases hget : s.get_current_folder.emails.get? index with _ | email
    · exact ⟨hsel, rfl, rfl⟩
    · dsimp only
      rcases hens : email.ensure_fully_loaded fs with err | e'
      · exact ⟨hsel, rfl, rfl⟩
      · dsimp only
        refine ⟨rfl, rfl, ?_⟩
        have key := @navClamped_modifyClamped
          (fun f => f.setEmails (f.emails.set index e'))
          (fun fo => Folder.subfolders_setEmails fo _)
          s.current_folder s.root_folder
        have key2 := congrArg (fun fo => fo.emails.length) key
        unfold EmailStore.get_current_folder
        exact key2.trans (by simp)

/-- Unfolding of the remember-and-clear block when a message is selected. -/
theorem remember_clear_step {c : App} {K : Nat}
    (hsel : c.email_store.selected_email = some K)
    (hidx : c.selection.email_index = K) :
    c.rememberAndClearSelection =
      { c with
        selection := { c.selection with remembered_email_index := some K }
        email_store := { c.email_store with selected_email := none } } := by
  unfold App.rememberAndClearSelection
  rw [hsel, hidx]
  rfl

/-- `set_state EmailContent` on an app showing the FolderMessages view only
changes the `state` field: that view has no Content pane to focus. -/
theorem set_state_content_noop (x : App)
    (hv : x.current_view = View.FolderMessages)
    (hh : x.content_pane_hidden = false) :
    x.set_state AppState.EmailContent = { x with state := AppState.EmailContent } := by
  have hcond : (x.current_view.get_available_panes x.content_pane_hidden).contains
      ActivePane.Content = false := by
    rw [hv, hh]
    rfl
  unfold App.set_state
  rw [hcond]
  rfl

/-- The restore-or-select-first block, in the restore case: the remembered
index comes back as the selection, everything else about the pane/view state
is untouched, and the index stays in bounds. -/
theorem restore_step {b : App} {K : Nat} (fs : FSNode)
    (hv : b.current_view = View.FolderMessages)
    (hh : b.content_pane_hidden = false)
    (hrem : b.selection.remembered_email_index = some K)
    (hK : K < b.email_store.get_current_folder.emails.length) :
    (b.restoreRememberedSelection fs).email_store.selected_email = some K ∧
    (b.restoreRememberedSelection fs).selection.email_index = K ∧
    (b.restoreRememberedSelection fs).selection.remembered_email_index = some K ∧
    (b.restoreRememberedSelection fs).current_view = b.current_view ∧
    (b.restoreRememberedSelection fs).content_pane_hidden = false ∧
    (b.restoreRememberedSelection fs).active_pane = b.active_pane ∧
    K < (b.restoreRememberedSelection fs).email_store.get_current_folder.emails.length := by
  have hselK : (b.email_store.select_email K).selected_email = some K := by
    unfold EmailStore.select_email
    rw [if_pos hK]
  have ha2 : b.restoreRememberedSelection fs =
      (let a2 : App :=
        { b with
          selection := { b.selection with email_index := K }
          email_store := b.email_store.select_email K }
       let res := a2.email_store.get_selected_email fs
       let a3 := { a2 with email_store := res.fst }
       if res.snd.isSome then a3.set_state AppState.EmailContent else a3) := by
    unfold App.restoreRememberedSelection
    rw [hrem]
  set a2 : App :=
    { b with
      selection := { b.selection with email_index := K }
      email_store := b.email_store.select_email K } with ha2def
  have hfacts := get_selected_email_fst_facts fs a2.email_store
  have ha2sel : a2.email_store.selected_email = some K := hselK
  have ha2len : K < a2.email_store.get_current_folder.emails.length := by
    show K < (b.email_store.select_email K).get_current_folder.emails.length
    unfold EmailStore.select_email
    rw [if_pos hK]
    exact hK
  rcases hopt : (a2.email_store.get_selected_email fs).snd with _ | e
  · have hR : b.restoreRememberedSelection fs
        = { a2 with email_store := (a2.email_store.get_selected_email fs).fst } := by
      rw [ha2]
      dsimp only
      rw [hopt]
      rfl
    rw [hR]
    refine ⟨?_, rfl, hrem, rfl, hh, rfl, ?_⟩
    · show (a2.email_store.get_selected_email fs).fst.selected_email = some K
      rw [hfacts.1]
      exact ha2sel
    · show K < (a2.email_store.get_selected_email fs).fst.get_current_folder.emails.length
      rw [hfacts.2.2]
      exact ha2len
  · have hR : b.restoreRememberedSelection fs
        = App.set_state { a2 with email_store := (a2.email_store.get_selected_email fs).fst }
            AppState.EmailContent := by
      rw [ha2]
      dsimp only
      rw [hopt]
      rfl
    have hnoop := set_state_content_noop
        { a2 with email_store := (a2.email_store.get_selected_email fs).fst } hv hh
    rw [hR, hnoop]
    refine ⟨?_, rfl, hrem, rfl, hh, rfl, ?_⟩
    · show (a2.email_store.get_selected_email fs).fst.selected_email = some K
      rw [hfacts.1]
      exact ha2sel
    · show K < (a2.email_store.get_selected_email fs).fst.get_current_folder.emails.length
      rw [hfacts.2.2]
      exact ha2len

/-- The restore-or-select-first block, in the select-first case: with nothing
remembered and a non-empty current folder, message 0 is selected. -/
theorem restore_step_first {b : App} (fs : FSNode)
    (hv : b.current_view = View.FolderMessages)
    (hh : b.content_pane_hidden = false)
    (hrem : b.selection.remembered_email_index = none)
    (hlen : 0 < b.email_store.get_current_folder.emails.length) :
    (b.restoreRememberedSelection fs).email_store.selected_email = some 0 ∧
    (b.restoreRememberedSelection fs).selection.email_index = 0 := by
  have hne : b.email_store.get_current_folder.emails.isEmpty = false := by
    rw [List.isEmpty_eq_false]
    exact List.ne_nil_of_length_pos hlen
  have hsel0 : (b.email_store.select_email 0).selected_email = some 0 := by
    unfold EmailStore.select_email
    rw [if_pos hlen]
  have ha2 : b.restoreRememberedSelection fs =
      (let a2 : App :=
        { b with
          selection := { b.selection with email_index := 0 }
          email_store := b.email_store.select_email 0 }
       let res := a2.email_store.get_selected_email fs
       let a3 := { a2 with email_store := res.fst }
       if res.snd.isSome then a3.set_state AppState.EmailContent else a3) := by
    unfold App.restoreRememberedSelection
    rw [hrem, hne]
    rfl
  set a2 : App :=
    { b with
      selection := { b.selection with email_index := 0 }
      email_store := b.email_store.select_email 0 } with ha2def
  have hfacts := get_selected_email_fst_facts fs a2.email_store
  have ha2sel : a2.email_store.selected_email = some 0 := hsel0
  rcases hopt : (a2.email_store.get_selected_email fs).snd with _ | e
  · have hR : b.restoreRememberedSelection fs
        = { a2 with email_store := (a2.email_store.get_selected_email fs).fst } := by
      rw [ha2]
      dsimp only
      rw [hopt]
      rfl
    rw [hR]
    refine ⟨?_, rfl⟩
    show (a2.email_store.get_selected_email fs).fst.selected_email = some 0
    rw [hfacts.1]
    exact ha2sel
  · have hR : b.restoreRememberedSelection fs
        = App.set_state { a2 with email_store := (a2.email_store.get_selected_email fs).fst }
            AppState.EmailContent := by
      rw [ha2]
      dsimp only
      rw [hopt]
      rfl
    have hnoop := set_state_content_noop
        { a2 with email_store := (a2.email_store.get_selected_email fs).fst } hv hh
    rw [hR, hnoop]
    refine ⟨?_, rfl⟩
    show (a2.email_store.get_selected_email fs).fst.selected_email = some 0
    rw [hfacts.1]
    exact ha2sel

/-- Stepping back with `h` from an invariant state clears the selection,
remembers `K`, and lands on the `FolderMessages` view with the folder pane
focused; the bound on `K` survives. -/
theorem prev_view_step {a : App} {K : Nat} (h : RoundInv a K) :
    (App.prev_view a).email_store.selected_email = none ∧
    (App.prev_view a).selection.remembered_email_index = some K ∧
    (App.prev_view a).selection.email_index = K ∧
    (App.prev_view a).current_view = View.FolderMessages ∧
    (App.prev_view a).active_pane = ActivePane.Folders ∧
    (App.prev_view a).content_pane_hidden = false ∧
    K < (App.prev_view a).email_store.get_current_folder.emails.length := by
  obtain ⟨hv, hh, hsel, hidx, hK⟩ := h
  have hrc := remember_clear_step hsel hidx
  have hpv : a.current_view.prev_view a.content_pane_hidden = some View.FolderMessages := by
    rw [hv, hh]
    try rfl
  have hred : App.prev_view a =
      { a.rememberAndClearSelection with
        current_view := View.FolderMessages
        active_pane := View.FolderMessages.get_default_active_pane
          a.rememberAndClearSelection.content_pane_hidden } := by
    unfold App.prev_view
    rw [hpv, hv]
    try rfl
  rw [hred, hrc]
  refine ⟨rfl, rfl, hidx, rfl, ?_, hh, hK⟩
  show View.FolderMessages.get_default_active_pane a.content_pane_hidden = ActivePane.Folders
  rw [hh]
  try rfl

/-- Stepping forward with `l` from the stepped-back state restores the
invariant (selection back to the remembered `K`) and focuses the message
list; the remembered index itself is kept. -/
theorem next_view_step {b : App} {K : Nat} (fs : FSNode)
    (hv : b.current_view = View.FolderMessages)
    (hh : b.content_pane_hidden = false)
    (hrem : b.selection.remembered_email_index = some K)
    (hK : K < b.email_store.get_current_folder.emails.length) :
    RoundInv (App.next_view fs b) K ∧
    (App.next_view fs b).active_pane = ActivePane.Messages ∧
    (App.next_view fs b).selection.remembered_email_index = some K := by
  have hnv : b.current_view.next_view b.content_pane_hidden = some View.MessagesContent := by
    rw [hv, hh]
    try rfl
  have hred : App.next_view fs b =
      { b.restoreRememberedSelection fs with
        current_view := View.MessagesContent
        active_pane := View.MessagesContent.get_default_active_pane
          (b.restoreRememberedSelection fs).content_pane_hidden } := by
    unfold App.next_view
    rw [hnv, hv]
    try rfl
  obtain ⟨h1, h2, h3, _h4, h5, _h6, h7⟩ := restore_step fs hv hh hrem hK
  rw [hred]
  refine ⟨⟨rfl, h5, h1, h2, h7⟩, ?_, h3⟩
  show View.MessagesContent.get_default_active_pane
      (b.restoreRememberedSelection fs).content_pane_hidden = ActivePane.Messages
  rw [h5]
  try rfl

/-- Moving focus from the folder pane back to the message list restores the
remembered selection and keeps the view, the pane layout and the bound. -/
theorem switch_right_step {b : App} {K : Nat} (fs : FSNode)
    (hv : b.current_view = View.FolderMessages)
    (hh : b.content_pane_hidden = false)
    (hp : b.active_pane = ActivePane.Folders)
    (hrem : b.selection.remembered_email_index = some K)
    (hK : K < b.email_store.get_current_folder.emails.length) :
    (App.switch_pane fs b PaneSwitchDirection.Right).email_store.selected_email = some K ∧
    (App.switch_pane fs b PaneSwitchDirection.Right).selection.email_index = K ∧
    (App.switch_pane fs b PaneSwitchDirection.Right).selection.remembered_email_index = some K ∧
    (App.switch_pane fs b PaneSwitchDirection.Right).active_pane = ActivePane.Messages ∧
    (App.switch_pane fs b PaneSwitchDirection.Right).current_view = View.FolderMessages ∧
    (App.switch_pane fs b PaneSwitchDirection.Right).content_pane_hidden = false ∧
    K < (App.switch_pane fs b PaneSwitchDirection.Right).email_store.get_current_folder.emails.length := by
  have hred : App.switch_pane fs b PaneSwitchDirection.Right =
      { b.restoreRememberedSelection fs with active_pane := ActivePane.Messages } := by
    unfold App.switch_pane
    rw [hv, hh, hp]
    try rfl
  obtain ⟨h1, h2, h3, h4, h5, h6, h7⟩ := restore_step fs hv hh hrem hK
  rw [hred]
  exact ⟨h1, h2, h3, rfl, h4.trans hv, h5, h7⟩

/-- Moving focus from the message list to the folder pane clears the
selection and remembers the selected index. -/
theorem switch_left_step {c : App} {K : Nat} (fs : FSNode)
    (hv : c.current_view = View.FolderMessages)
    (hh : c.content_pane_hidden = false)
    (hp : c.active_pane = ActivePane.Messages)
    (hsel : c.email_store.selected_email = some K)
    (hidx : c.selection.email_index = K) :
    (App.switch_pane fs c PaneSwitchDirection.Left).email_store.selected_email = none ∧
    (App.switch_pane fs c PaneSwitchDirection.Left).selection.remembered_email_index = some K ∧
    (App.switch_pane fs c PaneSwitchDirection.Left).active_pane = ActivePane.Folders := by
  have hred : App.switch_pane fs c PaneSwitchDirection.Left =
      { c.rememberAndClearSelection with active_pane := ActivePane.Folders } := by
    unfold App.switch_pane
    rw [hv, hh, hp]
    try rfl
  rw [hred, remember_clear_step hsel hidx]
  exact ⟨rfl, rfl, rfl⟩

/-- C1: selection-memory round trip. From any state satisfying `RoundInv`
(content-bearing `MessagesContent` view, message `K` selected and in bounds):
(1) the `h`-then-`l` round trip preserves the invariant for any number of
repetitions; (2) stepping back clears the store selection and remembers `K`,
landing on `FolderMessages` with the folder pane focused, and stepping
forward again — or moving focus folder-pane → list-pane — restores the
selection to `K`, while moving focus list-pane → folder-pane clears it and
remembers `K` again; (3) with nothing remembered, stepping forward from a
non-empty `FolderMessages` state selects the first message. -/
theorem selection_memory_round_trip :
    (∀ (fs : FSNode) (a : App) (K n : Nat), RoundInv a K →
      RoundInv ((roundTripStep fs)^[n] a) K) ∧
    (∀ (fs : FSNode) (a : App) (K : Nat), RoundInv a K →
      (App.prev_view a).email_store.selected_email = none ∧
      (App.prev_view a).selection.remembered_email_index = some K ∧
      (App.prev_view a).current_view = View.FolderMessages ∧
      (App.prev_view a).active_pane = ActivePane.Folders ∧
      (App.next_view fs (App.prev_view a)).email_store.selected_email = some K ∧
      (App.next_view fs (App.prev_view a)).selection.email_index = K ∧
      (App.next_view fs (App.prev_view a)).current_view = View.MessagesContent ∧
      (App.switch_pane fs (App.prev_view a)
        PaneSwitchDirection.Right).email_store.selected_email = some K ∧
      (App.switch_pane fs (App.prev_view a)
        PaneSwitchDirection.Right).selection.email_index = K ∧
      (App.switch_pane fs (App.prev_view a)
        PaneSwitchDirection.Right).active_pane = ActivePane.Messages ∧
      (App.switch_pane fs (App.switch_pane fs (App.prev_view a) PaneSwitchDirection.Right)
        PaneSwitchDirection.Left).email_store.selected_email = none ∧
      (App.switch_pane fs (App.switch_pane fs (App.prev_view a) PaneSwitchDirection.Right)
        PaneSwitchDirection.Left).selection.remembered_email_index = some K ∧
      (App.switch_pane fs (App.switch_pane fs (App.prev_view a) PaneSwitchDirection.Right)
        PaneSwitchDirection.Left).active_pane = ActivePane.Folders) ∧
    (∀ (fs : FSNode) (b : App), b.current_view = View.FolderMessages →
      b.content_pane_hidden = false →
      b.selection.remembered_email_index = none →
      0 < b.email_store.get_current_folder.emails.length →
      (App.next_view fs b).email_store.selected_email = some 0 ∧
      (App.next_view fs b).selection.email_index = 0) := by
  have hstep : ∀ (fs : FSNode) (a : App) (K : Nat), RoundInv a K →
      RoundInv (roundTripStep fs a) K := by
    intro fs a K h
    obtain ⟨hs1, hs2, hs3, hs4, hs5, hs6, hs7⟩ := prev_view_step h
    exact (next_view_step fs hs4 hs6 hs2 hs7).1
  refine ⟨?_, ?_, ?_⟩
  · intro fs a K n h
    induction n with
    | zero => simpa using h
    | succ m ih =>
      rw [Function.iterate_succ_apply']
      exact hstep fs _ K ih
  · intro fs a K h
    obtain ⟨hs1, hs2, hs3, hs4, hs5, hs6, hs7⟩ := prev_view_step h
    have hnx := next_view_step fs hs4 hs6 hs2 hs7
    obtain ⟨r1, r2, r3, r4, r5, r6, r7⟩ := switch_right_step fs hs4 hs6 hs5 hs2 hs7
    have hsl := switch_left_step fs r5 r6 r4 r1 r2
    exact ⟨hs1, hs2, hs4, hs5, hnx.1.2.2.1, hnx.1.2.2.2.1, hnx.1.1,
      r1, r2, r4, hsl.1, hsl.2.1, hsl.2.2⟩
  · intro fs b hv hh hrem hlen
    have hnv : b.current_view.next_view b.content_pane_hidden = some View.MessagesContent := by
      rw [hv, hh]
      try rfl
    have hred : App.next_view fs b =
        { b.restoreRememberedSelection fs with
          current_view := View.MessagesContent
          active_pane := View.MessagesContent.get_default_active_pane
            (b.restoreRememberedSelection fs).content_pane_hidden } := by
      unfold App.next_view
      rw [hnv, hv]
      try rfl
    obtain ⟨f1, f2⟩ := restore_step_first fs hv hh hrem hlen
    rw [hred]
    exact ⟨f1, f2⟩

/-- C1 witness: the round trip at the one-message fixture `selApp` with
`K = 0`, iterated three times, plus the restore and select-first facts. -/
theorem selection_memory_round_trip_witness :
    RoundInv ((roundTripStep emptyFS)^[3] selApp) 0 ∧
    (App.prev_view selApp).selection.remembered_email_index = some 0 ∧
    (App.next_view emptyFS (App.prev_view selApp)).email_store.selected_email = some 0 ∧
    (App.next_view emptyFS { selApp with
        current_view := View.FolderMessages
        active_pane := ActivePane.Folders }).email_store.selected_email = some 0 :=
  have hinv : RoundInv selApp 0 := ⟨rfl, rfl, rfl, rfl, by decide⟩
  ⟨selection_memory_round_trip.1 emptyFS selApp 0 3 hinv,
   (selection_memory_round_trip.2.1 emptyFS selApp 0 hinv).2.1,
   (selection_memory_round_trip.2.1 emptyFS selApp 0 hinv).2.2.2.2.1,
   (selection_memory_round_trip.2.2 emptyFS
     { selApp with
       current_view := View.FolderMessages
       active_pane := ActivePane.Folders } rfl rfl rfl (by decide)).1⟩

end Vulthor
